import Mathlib

/-!
Verification development for the `prefect_business_plan` ETL pipeline.

The Python source is shallowly embedded: pure functions become Lean functions,
the database store becomes an explicit list of records threaded through the
upsert, `uuid.uuid4()` draws become values taken from an explicit fresh-id
counter (collision freedom of uuid4 is assumed), pandas/polars dataframes
become lists of records, and float metric values are modelled as rationals.
Python `None`/missing cells are modelled with `Option`; `NaN` cells are
outside the modelled fragment.  String manipulation (`str.split`,
`str.strip`, `str.lower`) is embedded by structural recursion over the
string's character list so that every definition is kernel-computable; all
separators used by the source are single characters.
-/

/-- Model of `datetime.date`: the triple of fields the pipeline reads and
writes.  Construction validity (day in range for the month) is enforced where
the source constructs dates, via `TimeUtils.mkValidDate`. -/
structure PDate where
  year : Int
  month : Nat
  day : Nat
deriving DecidableEq, Repr

namespace TimeUtils

/-- `utils/time_utils.py::get_previous_month`: first day of the previous
month, via `date.replace(year=year, month=month, day=1)`. -/
def get_previous_month (d : PDate) : PDate :=
  if d.month = 1 then { year := d.year - 1, month := 12, day := 1 }
  else { year := d.year, month := d.month - 1, day := 1 }

/-- `utils/time_utils.py::get_next_month`: first day of the next month. -/
def get_next_month (d : PDate) : PDate :=
  if d.month = 12 then { year := d.year + 1, month := 1, day := 1 }
  else { year := d.year, month := d.month + 1, day := 1 }

/-- Python `s.split(sep)` for a one-character separator: adjacent separators
yield empty components, as in both Python and `String.splitOn`. -/
def splitOnChar (sep : Char) : List Char → List (List Char)
  | [] => [[]]
  | c :: cs =>
    if c = sep then [] :: splitOnChar sep cs
    else
      match splitOnChar sep cs with
      | [] => [[c]]
      | h :: t => (c :: h) :: t

/-- Python `s.strip()`: drop leading and trailing whitespace. -/
def stripChars (l : List Char) : List Char :=
  ((l.dropWhile Char.isWhitespace).reverse.dropWhile Char.isWhitespace).reverse

/-- ASCII lower-casing of one character (`str.lower` on the inputs used). -/
def charLower (c : Char) : Char :=
  if 'A' ≤ c && c ≤ 'Z' then Char.ofNat (c.toNat + 32) else c

/-- A maximal-digit-run component: nonempty and all decimal digits. -/
def allDigits (l : List Char) : Bool :=
  !l.isEmpty && l.all Char.isDigit

/-- Numeric value of an all-digit component (only used under `allDigits`). -/
def digitVal (l : List Char) : Nat :=
  l.foldl (fun n c => n * 10 + (c.toNat - 48)) 0

/-- Leap-year rule used by `datetime` when validating a day of month. -/
def isLeapYear (y : Int) : Bool :=
  (y % 4 = 0 && !(y % 100 = 0)) || y % 400 = 0

/-- Number of days of month `m` of year `y` (Gregorian, as in `datetime`). -/
def daysInMonth (y : Int) (m : Nat) : Nat :=
  if m = 2 then (if isLeapYear y then 29 else 28)
  else if m = 4 || m = 6 || m = 9 || m = 11 then 30
  else 31

/-- Construct a `datetime.date`, failing (as the Python constructors do) when
the month or the day is out of range. -/
def mkValidDate (y : Int) (m d : Nat) : Option PDate :=
  if 1 ≤ m && m ≤ 12 && 1 ≤ d && d ≤ daysInMonth y m then some ⟨y, m, d⟩ else none

/-- Model of `dateutil.parser.parse(s, dayfirst=False, fuzzy=False).date()`,
restricted to fully numeric three-component dates separated by `/`, `-` or a
space — the header shapes this pipeline feeds it.  A four-digit leading
component is read year-month-day; otherwise components are read
month-day-year (`dayfirst=False`) with a four-digit trailing year.  Inputs
the model rejects (month names, two-digit years, partial dates) either fail
in the real library as well or coincide with the explicit fallback format
list tried next by `parse_date_dynamic`, so the layered result agrees on the
header shapes exercised here. -/
def freeform_parse (s : String) : Option PDate :=
  let cs := s.data
  let comps :=
    if (splitOnChar '/' cs).length = 3 then splitOnChar '/' cs
    else if (splitOnChar '-' cs).length = 3 then splitOnChar '-' cs
    else splitOnChar ' ' cs
  match comps with
  | [a, b, c] =>
    if allDigits a && allDigits b && allDigits c then
      if a.length = 4 then mkValidDate (digitVal a) (digitVal b) (digitVal c)
      else if c.length = 4 then mkValidDate (digitVal c) (digitVal a) (digitVal b)
      else none
    else none
  | _ => none

/-- One field of a `strptime` pattern from `DATE_FORMATS`. -/
inductive Part
  | M   -- %m : month, 1-2 digits, 1..12
  | D   -- %d : day, 1-2 digits, 1..31
  | Y4  -- %Y : year, exactly 4 digits
  | Y2  -- %y : year, exactly 2 digits, 00-68 -> 2000s, 69-99 -> 1900s
  | B   -- %b : abbreviated month name, case-insensitive
deriving DecidableEq

/-- Semantic slot a pattern field fills. -/
inductive Slot
  | mon
  | day
  | yr
deriving DecidableEq

def slotOf : Part → Slot
  | .M => .mon
  | .B => .mon
  | .D => .day
  | .Y4 => .yr
  | .Y2 => .yr

/-- `strptime`-style abbreviated month names (C locale, case-insensitive). -/
def monthAbbr (l : List Char) : Option Nat :=
  match l.map charLower with
  | ['j', 'a', 'n'] => some 1
  | ['f', 'e', 'b'] => some 2
  | ['m', 'a', 'r'] => some 3
  | ['a', 'p', 'r'] => some 4
  | ['m', 'a', 'y'] => some 5
  | ['j', 'u', 'n'] => some 6
  | ['j', 'u', 'l'] => some 7
  | ['a', 'u', 'g'] => some 8
  | ['s', 'e', 'p'] => some 9
  | ['o', 'c', 't'] => some 10
  | ['n', 'o', 'v'] => some 11
  | ['d', 'e', 'c'] => some 12
  | _ => none

/-- Match one `strptime` field against one separator-delimited component,
following CPython's `_strptime` regexes. -/
def partRead : Part → List Char → Option Int
  | .M, s =>
    if allDigits s && s.length ≤ 2 && 1 ≤ digitVal s && digitVal s ≤ 12 then
      some (digitVal s) else none
  | .D, s =>
    if allDigits s && s.length ≤ 2 && 1 ≤ digitVal s && digitVal s ≤ 31 then
      some (digitVal s) else none
  | .Y4, s => if allDigits s && s.length = 4 then some (digitVal s) else none
  | .Y2, s =>
    if allDigits s && s.length = 2 then
      some (if digitVal s ≤ 68 then 2000 + digitVal s else 1900 + digitVal s)
    else none
  | .B, s => (monthAbbr s).map Int.ofNat

/-- `datetime.strptime(s, fmt)` for a three-field pattern with a single
separator character, as every entry of `DATE_FORMATS` is.  The whole string
must be consumed and the assembled date must be constructible. -/
def strptime3 (sep : Char) (pa pb pc : Part) (s : List Char) : Option PDate :=
  match splitOnChar sep s with
  | [x1, x2, x3] => do
    let v1 ← partRead pa x1
    let v2 ← partRead pb x2
    let v3 ← partRead pc x3
    let fields := [(pa, v1), (pb, v2), (pc, v3)]
    let mo ← (fields.find? (fun pv => slotOf pv.1 = .mon)).map (·.2)
    let dy ← (fields.find? (fun pv => slotOf pv.1 = .day)).map (·.2)
    let yr ← (fields.find? (fun pv => slotOf pv.1 = .yr)).map (·.2)
    mkValidDate yr mo.toNat dy.toNat
  | _ => none

/-- `utils/time_utils.py::DATE_FORMATS`, in source order. -/
def DATE_FORMATS : List (List Char → Option PDate) :=
  [ strptime3 '/' .M .D .Y2    -- "%m/%d/%y"
  , strptime3 '/' .M .D .Y4    -- "%m/%d/%Y"
  , strptime3 '-' .D .M .Y4    -- "%d-%m-%Y"
  , strptime3 '-' .Y4 .M .D    -- "%Y-%m-%d"
  , strptime3 '-' .M .D .Y4    -- "%m-%d-%Y"
  , strptime3 '/' .D .M .Y4    -- "%d/%m/%Y"
  , strptime3 ' ' .B .D .Y4 ]  -- "%b %d %Y"

/-- Try parsing strategies in order; first success wins. -/
def firstSuccess : List (List Char → Option PDate) → List Char → Option PDate
  | [], _ => none
  | f :: fs, s =>
    match f s with
    | some d => some d
    | none => firstSuccess fs s

/-- `utils/time_utils.py::parse_date_dynamic`: strip the header, try the
free-form parser, then each explicit format; return `None` (never raise) when
everything fails. -/
def parse_date_dynamic (date_str : String) : Option PDate :=
  let s := String.mk (stripChars date_str.data)
  match freeform_parse s with
  | some d => some d
  | none => firstSuccess DATE_FORMATS s.data

end TimeUtils

/-!
Generic group-by-and-sum machinery shared by the aggregation stages.  A
dataframe `groupby(keys).sum()` is embedded as: the list of distinct key
values, each paired with the sum of the `value` column over the rows carrying
that key.  Pandas/polars emit the groups in sorted / arbitrary order; the
stated properties are order-independent, so first-occurrence order is used.
-/

/-- Distinct values of a list, keeping the first occurrence of each;
`seen` accumulates the values already emitted. -/
def dedupFirstAux {α : Type} [DecidableEq α] (seen : List α) : List α → List α
  | [] => []
  | a :: l => if a ∈ seen then dedupFirstAux seen l else a :: dedupFirstAux (a :: seen) l

/-- Distinct values of a list, keeping the first occurrence of each. -/
def dedupFirst {α : Type} [DecidableEq α] (l : List α) : List α :=
  dedupFirstAux [] l

/-- Sum of `v` over the elements of `recs` whose key is `k`. -/
def sumBy {α κ : Type} [DecidableEq κ] (key : α → κ) (v : α → Rat)
    (recs : List α) (k : κ) : Rat :=
  ((recs.filter (fun r => key r = k)).map v).sum

namespace ImportersImportSales

/-!
Embedding of `importers/import_sales.py`, the pandas sales-import pipeline:
`detect_date_columns`, `get_project_id`, `aggregate_sales_data`,
`clean_negative_values`, `transform_to_model_format` and the per-row
`bulk_insert`, composed in the order `main_job` calls them.
-/

/-- `importers/import_sales.py::MIN_VALID_YEAR`. -/
def MIN_VALID_YEAR : Int := 2000

/-- Keys of `importers/import_sales.py::FIELD_MAPPING`. -/
def FIELD_MAPPING_KEYS : List String :=
  ["project_name", "currency", "segment", "parameter"]

/-- `importers/import_sales.py::detect_date_columns`: keep, in column order,
the non-identity headers that parse to a date with a plausible year. -/
def detect_date_columns (columns : List String) : List String :=
  columns.filter (fun col =>
    if FIELD_MAPPING_KEYS.contains col then false
    else
      match TimeUtils.parse_date_dynamic col with
      | some d => decide (MIN_VALID_YEAR ≤ d.year)
      | none => false)

/-- A row of the `projects` table (the fields the import reads). -/
structure Project where
  id : String
  project_name : String
  currency : String
deriving DecidableEq, Repr

/-- `importers/import_sales.py::get_project_id`: reject blank or sentinel
names (the source raises `ValueError`, modelled as `none`), then look the
project up by exact `(project_name, currency)` equality with `LIMIT 1`; a
missing project is also an error (`none`). -/
def get_project_id (projects : List Project) (project_name currency : String) :
    Option String :=
  if project_name = "" || project_name = "None" then none
  else (projects.find? (fun p => p.project_name = project_name && p.currency = currency)).map (·.id)

/-- An input spreadsheet row as `aggregate_sales_data` sees it: the four
identity cells plus the month-column cells.  `none` models a Python
`None`/`NaN` identity cell or (for `cells`) a missing month cell. -/
structure InRow where
  project_name : Option String
  currency : Option String
  segment : Option String
  parameter : Option String
  cells : List (String × Option Rat)
deriving DecidableEq, Repr

/-- The guard `not project_name or pd.isna(project_name) or
project_name == "None"`. -/
def invalidProjectName : Option String → Bool
  | none => true
  | some s => s = "" || s = "None"

/-- Python falsiness of an optional string cell, as used by
`not all([segment, parameter])`. -/
def falsyStr : Option String → Bool
  | none => true
  | some s => s = ""

/-- `parameter.split("_")[1].lower() if "_" in parameter else
parameter.lower()`. -/
def normalizeParameter (p : String) : String :=
  if p.data.contains '_' then
    String.mk ((((TimeUtils.splitOnChar '_' p.data).getD 1 []).map TimeUtils.charLower))
  else String.mk (p.data.map TimeUtils.charLower)

/-- `float(row.get(date_col, 0.0) or 0.0)`: a missing column or a `None`
(falsy) cell contributes zero. -/
def cellValue (r : InRow) (dc : String) : Rat :=
  match r.cells.lookup dc with
  | some (some v) => v
  | some none => 0
  | none => 0

/-- A long-format fact record as produced inside `aggregate_sales_data`. -/
structure AggRec where
  project : String
  segment : String
  date_of_month_begin : PDate
  parameter : String
  value : Rat
deriving DecidableEq, Repr

/-- The pandas group-by key `["project", "segment", "date_of_month_begin",
"parameter"]`. -/
def aggKey (r : AggRec) : String × String × PDate × String :=
  (r.project, r.segment, r.date_of_month_begin, r.parameter)

/-- The identity part of the key (without the metric name). -/
def aggKey3 (r : AggRec) : String × String × PDate :=
  (r.project, r.segment, r.date_of_month_begin)

/-- What one input row contributes inside the `iterrows` loop of
`aggregate_sales_data`: its long records and its increment of the skip
counter.  The branches mirror the source order: invalid project name, failed
project lookup, missing segment/parameter, then one record per parseable
date column. -/
def rowContrib (projects : List Project) (dates : List String) (r : InRow) :
    List AggRec × Nat :=
  if invalidProjectName r.project_name then ([], 1)
  else
    match get_project_id projects (r.project_name.getD "") (r.currency.getD "USD") with
    | none => ([], 1)
    | some pid =>
      if falsyStr r.segment || falsyStr r.parameter then ([], 1)
      else
        let param := normalizeParameter (r.parameter.getD "")
        (dates.filterMap (fun dc =>
          (TimeUtils.parse_date_dynamic dc).map (fun d =>
            { project := pid, segment := r.segment.getD "",
              date_of_month_begin := d, parameter := param,
              value := cellValue r dc })), 0)

/-- All long records of a dataframe, in row order. -/
def rawRecords (projects : List Project) (dates : List String) (df : List InRow) :
    List AggRec :=
  df.flatMap (fun r => (rowContrib projects dates r).1)

/-- Total skip counter accumulated over a dataframe. -/
def skippedCount (projects : List Project) (dates : List String) (df : List InRow) :
    Nat :=
  (df.map (fun r => (rowContrib projects dates r).2)).sum

/-- The final `groupby([...])["value"].sum()` of `aggregate_sales_data`. -/
def groupAgg (recs : List AggRec) : List AggRec :=
  (dedupFirst (recs.map aggKey)).map (fun k =>
    { project := k.1, segment := k.2.1, date_of_month_begin := k.2.2.1,
      parameter := k.2.2.2, value := sumBy aggKey (·.value) recs k })

/-- `importers/import_sales.py::aggregate_sales_data`: the grouped records
plus the skip counter the function logs. -/
def aggregate_sales_data (projects : List Project) (df : List InRow)
    (dates : List String) : List AggRec × Nat :=
  (groupAgg (rawRecords projects dates df), skippedCount projects dates df)

/-- `importers/import_sales.py::clean_negative_values` specialized to the
aggregated frame, whose single listed column is `"value"`
(`NEGATIVE_CLEAN_COLUMNS`): `lambda x: 0 if x < 0 else x`. -/
def clean_negative_values (recs : List AggRec) : List AggRec :=
  recs.map (fun r => { r with value := if r.value < 0 then 0 else r.value })

/-- A row in `SalesModel` shape: both the dataframe rows handed to
`bulk_insert` and the stored `sales` records carry these seven columns. -/
structure SalesRow where
  id : Nat
  project : String
  segment : String
  date_of_month_begin : PDate
  total_gs : Rat
  total_ewc : Rat
  total_gm : Rat
deriving DecidableEq, Repr

/-- The `(project, segment, date_of_month_begin)` group key of
`transform_to_model_format`, equal to the unique key of `SalesModel`. -/
def skey (m : SalesRow) : String × String × PDate :=
  (m.project, m.segment, m.date_of_month_begin)

/-- One pre-grouping row of `transform_to_model_format`: the metric chosen by
the (already lower-cased) parameter receives the value, the others 0.0. -/
def toModelRow (i : Nat) (r : AggRec) : SalesRow :=
  { id := i, project := r.project, segment := r.segment,
    date_of_month_begin := r.date_of_month_begin,
    total_gs := if r.parameter = "gs" then r.value else 0,
    total_ewc := if r.parameter = "ewc" then r.value else 0,
    total_gm := if r.parameter = "gm" then r.value else 0 }

/-- The list comprehension `[str(uuid.uuid4()) for _ in range(len(df))]`
paired with the per-row construction; fresh identifiers are modelled as
consecutive naturals starting at `firstId`. -/
def modelRows (firstId : Nat) : List AggRec → List SalesRow
  | [] => []
  | r :: rs => toModelRow firstId r :: modelRows (firstId + 1) rs

/-- The `groupby(["project", "segment", "date_of_month_begin"])` pass of
`transform_to_model_format`: first identifier of the group, sums of the three
metric columns. -/
def transformGroup (mr : List SalesRow) : List SalesRow :=
  (dedupFirst (mr.map skey)).map (fun k =>
    { id := (((mr.filter (fun m => skey m = k)).head?).map (·.id)).getD 0,
      project := k.1, segment := k.2.1, date_of_month_begin := k.2.2,
      total_gs := sumBy skey (·.total_gs) mr k,
      total_ewc := sumBy skey (·.total_ewc) mr k,
      total_gm := sumBy skey (·.total_gm) mr k })

/-- `importers/import_sales.py::transform_to_model_format`: build the
per-record model rows, then group by `(project, segment,
date_of_month_begin)` taking the first identifier and summing the three
metric columns. -/
def transform_to_model_format (firstId : Nat) (recs : List AggRec) :
    List SalesRow :=
  transformGroup (modelRows firstId recs)

/-- The dataframe stages of `main_job` between reading and persisting, in
source order: aggregate, clamp negatives on the aggregated `"value"` column,
reshape to model format. -/
def pipeline (projects : List Project) (firstId : Nat) (df : List InRow)
    (dates : List String) : List SalesRow :=
  transform_to_model_format firstId
    (clean_negative_values (aggregate_sales_data projects df dates).1)

/-- The per-row skip condition of C8: the project name is blank/None/"None",
or the `(project_name, currency)` lookup fails. -/
def resolutionFails (projects : List Project) (r : InRow) : Prop :=
  invalidProjectName r.project_name = true ∨
    get_project_id projects (r.project_name.getD "") (r.currency.getD "USD") = none

/-!
`importers/import_sales.py::bulk_insert` (lines 229-295): the per-row
insert-or-update loop against the `sales` store.  The store is the list of
persisted `SalesRow`s; `uuid.uuid4()` is a draw from the `nextId` supply.
-/

/-- State threaded through `bulk_insert`: the `sales` store, the fresh-id
supply, and the three logged counters. -/
structure InsertState where
  store : List SalesRow
  nextId : Nat
  skipped : Nat
  updated : Nat
  inserted : Nat
deriving DecidableEq, Repr

/-- `SalesModel.get_or_none` on the unique key: first stored record with
equal project, segment and month. -/
def getOrNone (store : List SalesRow) (r : SalesRow) : Option SalesRow :=
  store.find? (fun rec => skey rec = skey r)

/-- `SalesModel.update(total_gs=..., total_ewc=..., total_gm=...)`: overwrite
the three metric columns, keep everything else. -/
def updVals (dst src : SalesRow) : SalesRow :=
  { dst with
    total_gs := src.total_gs,
    total_ewc := src.total_ewc,
    total_gm := src.total_gm }

/-- `UPDATE ... WHERE id = i`: rewrite the metric columns of the records
carrying identifier `i` (unique in a well-formed store, `id` being the
primary key). -/
def updateById (store : List SalesRow) (i : Nat) (src : SalesRow) : List SalesRow :=
  store.map (fun rec => if rec.id = i then updVals rec src else rec)

/-- `not all([project_id, segment, date_of_month_begin])`: blank strings are
falsy; a `datetime.date` value is always truthy. -/
def requiredMissing (r : SalesRow) : Bool :=
  r.project = "" || r.segment = ""

/-- One iteration of the `bulk_insert` row loop.  `fails` is a persistence
failure oracle: when it marks a row, that row's store operation raises and
the `except` branch counts the row as skipped and continues — modelling a
constraint violation or connection loss on that row's write. -/
def processRow (fails : SalesRow → Bool) (st : InsertState) (row : SalesRow) :
    InsertState :=
  if requiredMissing row then { st with skipped := st.skipped + 1 }
  else if fails row then { st with skipped := st.skipped + 1 }
  else
    match getOrNone st.store row with
    | some rec =>
      { st with
        store := updateById st.store rec.id row,
        updated := st.updated + 1 }
    | none =>
      { st with
        store := st.store ++ [{ row with id := st.nextId }],
        nextId := st.nextId + 1,
        inserted := st.inserted + 1 }

/-- `importers/import_sales.py::bulk_insert`: the `iterrows` loop.  The
source's `batch_size` parameter is accepted but never used — there is no
chunking; every row is written by its own store operations. -/
def bulk_insert (fails : SalesRow → Bool) (st : InsertState)
    (data : List SalesRow) : InsertState :=
  data.foldl (processRow fails) st

/-- The no-failure oracle: every store operation succeeds. -/
def noFail : SalesRow → Bool := fun _ => false

/-- A well-formed store: the declared unique key and the primary key hold,
and every stored identifier predates the fresh-id supply. -/
def WF (st : InsertState) : Prop :=
  (st.store.map skey).Nodup ∧ (st.store.map (·.id)).Nodup ∧
    ∀ rec ∈ st.store, rec.id < st.nextId

/-- Does this row write nothing (required-field skip or store failure)? -/
def skipRow (fails : SalesRow → Bool) (r : SalesRow) : Bool :=
  requiredMissing r || fails r

/-- The effect of one processed row on one stored record. -/
def writeStep (fails : SalesRow → Bool) (rec row : SalesRow) : SalesRow :=
  if skipRow fails row then rec
  else if skey rec = skey row then updVals rec row else rec

/-- The cumulative effect of a run's rows on one stored record. -/
def writeFold (fails : SalesRow → Bool) (rows : List SalesRow)
    (rec : SalesRow) : SalesRow :=
  rows.foldl (writeStep fails) rec

/-- The last row of `rows` that writes key `k`. -/
def lastWrite (fails : SalesRow → Bool) (rows : List SalesRow)
    (k : String × String × PDate) : Option SalesRow :=
  rows.reverse.find? (fun r => !skipRow fails r && decide (skey r = k))

/-- The records a run inserts, given the keys already present: a non-skipped
row whose key is absent is inserted with the next fresh identifier and then
receives the remaining rows' writes to its key. -/
def insertsFrom (fails : SalesRow → Bool) :
    List SalesRow → List (String × String × PDate) → Nat → List SalesRow
  | [], _, _ => []
  | r :: rest, ks, n =>
    if skipRow fails r then insertsFrom fails rest ks n
    else if skey r ∈ ks then insertsFrom fails rest ks n
    else writeFold fails rest { r with id := n }
      :: insertsFrom fails rest (ks ++ [skey r]) (n + 1)

/-- All three metric columns of a row are non-negative. -/
def nonnegRow (m : SalesRow) : Prop :=
  0 ≤ m.total_gs ∧ 0 ≤ m.total_ewc ∧ 0 ≤ m.total_gm

end ImportersImportSales

namespace DfUtils

/-- `utils/df_utils.py::detect_date_columns`: the free-form parser alone
decides; no identity-column exclusion and no minimum-year guard. -/
def detect_date_columns (columns : List String) : List String :=
  columns.filter (fun col => (TimeUtils.freeform_parse col).isSome)

end DfUtils

namespace DbUtils

/-!
Embedding of `utils/db_utils.py::bulk_insert` applied to `SalesModel`, as the
polars `main_job` calls it.  The dataframe handed over carries the columns of
`transform_to_model_format`'s final `select`: `id`, `project` (the renamed
`project_id`), `segment`, `date_of_month_begin` and the three metric columns.
The model's unique index is declared over the raw column names
`("project_id", "date_of_month_begin", "segment")`.
-/

/-- A Python dict value as `bulk_insert` sees it: strings (ids, names), dates,
floats, or an absent/`None` entry. -/
inductive FVal where
  | str (s : String)
  | date (d : PDate)
  | num (q : Rat)
  | none
deriving DecidableEq, Repr

/-- A row of the dataframe handed to `bulk_insert` by the polars
`main_job`. -/
structure DRow where
  id : String
  project : String
  segment : String
  date_of_month_begin : PDate
  total_gs : Rat
  total_ewc : Rat
  total_gm : Rat
deriving DecidableEq, Repr

/-- The column names of that dataframe (the keys of each row dict). -/
def salesColumns : List String :=
  ["id", "project", "segment", "date_of_month_begin",
   "total_gs", "total_ewc", "total_gm"]

/-- `row.get(field)`: the dict lookup.  There is no `"project_id"` key — the
transform renamed that column to `"project"` — so that lookup yields
`None`. -/
def rowGet (r : DRow) (f : String) : FVal :=
  if f = "id" then .str r.id
  else if f = "project" then .str r.project
  else if f = "segment" then .str r.segment
  else if f = "date_of_month_begin" then .date r.date_of_month_begin
  else if f = "total_gs" then .num r.total_gs
  else if f = "total_ewc" then .num r.total_ewc
  else if f = "total_gm" then .num r.total_gm
  else .none

/-- A persisted `sales` record; `project_id` is the raw foreign-key
column. -/
structure StoredSale where
  id : String
  project_id : String
  segment : String
  date_of_month_begin : PDate
  total_gs : Rat
  total_ewc : Rat
  total_gm : Rat
deriving DecidableEq, Repr

/-- `getattr(rec, field)` for the unique-index fields of a stored record. -/
def recGet (rec : StoredSale) (f : String) : FVal :=
  if f = "project_id" then .str rec.project_id
  else if f = "date_of_month_begin" then .date rec.date_of_month_begin
  else if f = "segment" then .str rec.segment
  else .none

/-- The unique-index fields taken from `SalesModel._meta.indexes`. -/
def SALES_UNIQUE_FIELDS : List String :=
  ["project_id", "date_of_month_begin", "segment"]

/-- The required fields: the non-null, non-default model fields in
declaration order, plus the UUID primary key appended by the source. -/
def SALES_REQUIRED_FIELDS : List String :=
  ["project", "segment", "date_of_month_begin", "id"]

/-- `all(field in row and row[field] is not None for field in
required_fields)`. -/
def requiredOk (r : DRow) : Bool :=
  SALES_REQUIRED_FIELDS.all (fun f =>
    salesColumns.contains f && rowGet r f != FVal.none)

/-- `tuple(row.get(field) for field in unique_fields)`. -/
def rowKey (r : DRow) : List FVal :=
  SALES_UNIQUE_FIELDS.map (rowGet r)

/-- The stored record's unique-key tuple. -/
def recKey (rec : StoredSale) : List FVal :=
  SALES_UNIQUE_FIELDS.map (recGet rec)

/-- SQL `x IN (v₁, …, vₙ)`: true only on an equal non-NULL element (a NULL
in the list never matches). -/
def sqlInMatch (x : FVal) (vs : List FVal) : Bool :=
  vs.any (fun v => v != FVal.none && x == v)

/-- The `existing_records` map: key tuples are collected from the valid rows
that carry every unique field (`if all(field in row for field in
unique_fields)`); if any keys remain, the store is queried with one `IN`
condition per unique field and the matches are keyed by their tuples. -/
def existingRecords (store : List StoredSale) (valid : List DRow) :
    List (List FVal × String) :=
  let keys := (valid.filter (fun _ =>
    SALES_UNIQUE_FIELDS.all (fun f => salesColumns.contains f))).map rowKey
  if keys.isEmpty then []
  else (store.filter (fun rec =>
      (List.range SALES_UNIQUE_FIELDS.length).all (fun i =>
        sqlInMatch (recGet rec (SALES_UNIQUE_FIELDS.getD i ""))
          (keys.map (fun k => k.getD i FVal.none))))).map
    (fun rec => (recKey rec, rec.id))

/-- The rows routed to `insert_data`: unique key not among the existing
records.  The source keeps every dataframe column (all are model fields) and
the already-present `id`. -/
def insertRows (existing : List (List FVal × String)) (valid : List DRow) :
    List DRow :=
  valid.filter (fun r => (existing.lookup (rowKey r)).isNone)

/-- The rows routed to `update_data`, paired with the matched stored
identifier. -/
def updateTargets (existing : List (List FVal × String)) (valid : List DRow) :
    List (String × DRow) :=
  valid.filterMap (fun r => (existing.lookup (rowKey r)).map (fun i => (i, r)))

/-- `insert_many`: the persisted record built from a dataframe row;
assigning the model's `project` field sets the raw `project_id` column. -/
def insertOf (r : DRow) : StoredSale :=
  { id := r.id, project_id := r.project, segment := r.segment,
    date_of_month_begin := r.date_of_month_begin,
    total_gs := r.total_gs, total_ewc := r.total_ewc, total_gm := r.total_gm }

/-- One `model.update(...).where(model.id == id)`: the update dict carries
the row fields outside `unique_fields + ["id"]`, i.e. `project` and the three
metrics. -/
def applyUpdate (rec : StoredSale) (r : DRow) : StoredSale :=
  { rec with
    project_id := r.project,
    total_gs := r.total_gs,
    total_ewc := r.total_ewc,
    total_gm := r.total_gm }

/-- `utils/db_utils.py::bulk_insert` on `SalesModel`: validate, look up
existing unique keys, insert the misses, then run the per-id updates. -/
def bulk_insert (store : List StoredSale) (data : List DRow) :
    List StoredSale :=
  let valid := data.filter requiredOk
  let existing := existingRecords store valid
  let afterInsert := store ++ (insertRows existing valid).map insertOf
  (updateTargets existing valid).foldl
    (fun s u => s.map (fun rec =>
      if rec.id = u.1 then applyUpdate rec u.2 else rec))
    afterInsert

end DbUtils

namespace SrcImportSales

/-!
Embedding of `src/import_sales.py`, the polars variant of the pipeline.  Its
`main_job` (lines 224-229) applies `clean_negative_values` to the raw date
columns BEFORE `aggregate_sales_data`, and once more to the aggregated
`"value"` column after it.
-/

/-- `src/import_sales.py::MIN_VALID_YEAR`. -/
def MIN_VALID_YEAR : Int := 2000

/-- An input spreadsheet row of the polars variant: the four identity cells
(`FIELD_MAPPING` uses `data_fields` instead of `parameter`) plus the month
cells. -/
structure WideRow where
  project_name : Option String
  currency : Option String
  segment : Option String
  data_fields : Option String
  cells : List (String × Option Rat)
deriving DecidableEq, Repr

/-- One required cell passing the polars filter
`(~col.is_null()) & (col != "") & (col != "None")`. -/
def cellOk : Option String → Bool
  | none => false
  | some s => !(s = "") && !(s = "None")

/-- The `pl.all_horizontal` filter over the four required columns. -/
def rowValid (r : WideRow) : Bool :=
  cellOk r.project_name && cellOk r.currency && cellOk r.segment && cellOk r.data_fields

/-- `utils/df_utils.py::clean_negative_values` (polars branch) applied to the
wide date columns: `map_elements(lambda x: 0 if x < 0 else x)` clamps
non-null cells, nulls pass through. -/
def clean_negative_values_wide (df : List WideRow) (columns : List String) :
    List WideRow :=
  df.map (fun r =>
    { r with cells := r.cells.map (fun c =>
        if columns.contains c.1 then (c.1, c.2.map (fun x => if x < 0 then 0 else x))
        else c) })

/-- `fetch_project_id` inside `aggregate_sales_data`: reject falsy/"None"
conditions, look the project up (`get_record_id`), and on lookup failure
create it with a freshly generated identifier (creating policy). -/
def fetch_project_id (projects : List ImportersImportSales.Project) (counter : Nat)
    (name cur : String) :
    Option String × List ImportersImportSales.Project × Nat :=
  if !(cellOk (some name)) || !(cellOk (some cur)) then (none, projects, counter)
  else
    match projects.find? (fun p => p.project_name = name && p.currency = cur) with
    | some p => (some p.id, projects, counter)
    | none =>
      let pid := "new-" ++ toString counter
      (some pid, projects ++ [{ id := pid, project_name := name, currency := cur }],
        counter + 1)

/-- The sequential `map_elements` pass computing the `project_id` column:
row order, threading the store of projects and the fresh-id counter. -/
def resolveRows : List WideRow → List ImportersImportSales.Project → Nat →
    List (WideRow × Option String) × List ImportersImportSales.Project × Nat
  | [], ps, c => ([], ps, c)
  | r :: rest, ps, c =>
    let step := fetch_project_id ps c (r.project_name.getD "") (r.currency.getD "")
    let tail := resolveRows rest step.2.1 step.2.2
    ((r, step.1) :: tail.1, tail.2)

/-- A long-format row produced by the unpivot. -/
structure AggRowPl where
  project_id : String
  segment : String
  date_of_month_begin : PDate
  data_fields : String
  value : Rat
deriving DecidableEq, Repr

/-- The polars group key `AGGREGATION_FIELDS = ["project_id", "segment",
"date_of_month_begin", "data_fields"]`. -/
def aggKeyPl (r : AggRowPl) : String × String × PDate × String :=
  (r.project_id, r.segment, r.date_of_month_begin, r.data_fields)

/-- `value` after `cast(Float64, strict=False).fill_null(0.0)`: missing or
null cells become zero. -/
def cellValuePl (r : WideRow) (dc : String) : Rat :=
  match r.cells.lookup dc with
  | some (some v) => v
  | some none => 0
  | none => 0

/-- The long-format rows of `aggregate_sales_data` before the final group-by:
filter valid rows, resolve (and possibly create) projects, drop unresolved
rows, lower-case `data_fields`, unpivot over the date columns, parse the
header dates and keep only plausible years, fill null values with zero. -/
def longRows (projects : List ImportersImportSales.Project) (counter : Nat)
    (df : List WideRow) (date_columns : List String) : List AggRowPl :=
  let resolved := (resolveRows (df.filter rowValid) projects counter).1
  let present := resolved.filterMap (fun rc => rc.2.map (fun pid => (rc.1, pid)))
  let lowered := present.map (fun rc =>
    ({ rc.1 with data_fields := rc.1.data_fields.map (fun s =>
        String.mk (s.data.map TimeUtils.charLower)) }, rc.2))
  lowered.flatMap (fun rc =>
    date_columns.filterMap (fun dc =>
      match TimeUtils.parse_date_dynamic dc with
      | some d =>
        if MIN_VALID_YEAR ≤ d.year then
          -- fields: project_id, segment, date_of_month_begin, data_fields, value
          some ⟨rc.2, rc.1.segment.getD "", d, rc.1.data_fields.getD "",
            cellValuePl rc.1 dc⟩
        else none
      | none => none))

/-- The final `group_by(AGGREGATION_FIELDS).agg(value.sum())`. -/
def groupAggPl (recs : List AggRowPl) : List AggRowPl :=
  (dedupFirst (recs.map aggKeyPl)).map (fun k =>
    { project_id := k.1, segment := k.2.1, date_of_month_begin := k.2.2.1,
      data_fields := k.2.2.2, value := sumBy aggKeyPl (·.value) recs k })

/-- `src/import_sales.py::aggregate_sales_data`: grouped long rows plus the
final projects store and counter. -/
def aggregate_sales_data (projects : List ImportersImportSales.Project)
    (counter : Nat) (df : List WideRow) (date_columns : List String) :
    List AggRowPl × List ImportersImportSales.Project × Nat :=
  (groupAggPl (longRows projects counter df date_columns),
    (resolveRows (df.filter rowValid) projects counter).2)

/-- `clean_negative_values` on the aggregated `"value"` column
(`NEGATIVE_CLEAN_COLUMNS`). -/
def clean_negative_values_long (recs : List AggRowPl) : List AggRowPl :=
  recs.map (fun r => { r with value := if r.value < 0 then 0 else r.value })

/-- The dataframe stages of `src/import_sales.py::main_job` lines 224-229 in
source order: clamp the raw date columns, aggregate, clamp the aggregated
value column. -/
def main_job_slice (projects : List ImportersImportSales.Project) (counter : Nat)
    (df : List WideRow) (dateCols : List String) : List AggRowPl :=
  clean_negative_values_long
    (aggregate_sales_data projects counter (clean_negative_values_wide df dateCols)
      dateCols).1

/-- The computation claim C3 prescribes instead: aggregate the raw rows
(negatives intact) and clamp only the post-aggregation totals. -/
def postagg_only_slice (projects : List ImportersImportSales.Project) (counter : Nat)
    (df : List WideRow) (dateCols : List String) : List AggRowPl :=
  clean_negative_values_long (aggregate_sales_data projects counter df dateCols).1

end SrcImportSales

namespace Fixtures

open ImportersImportSales

/-- A one-project store for the concrete scenarios. -/
def projectsC : List Project := [{ id := "P1", project_name := "Acme", currency := "USD" }]

/-- The single detected month column of the concrete scenarios. -/
def datesC : List String := ["2024-01-01"]

/-- Two rows contributing 30 and 20 to the same (project, month, segment). -/
def dfC4 : List InRow :=
  [ { project_name := some "Acme", currency := some "USD", segment := some "B2B",
      parameter := some "total_gs", cells := [("2024-01-01", some 30)] }
  , { project_name := some "Acme", currency := some "USD", segment := some "B2B",
      parameter := some "total_gs", cells := [("2024-01-01", some 20)] } ]

/-- The aggregated row the C4 scenario must produce. -/
def rowC4 : AggRec :=
  { project := "P1", segment := "B2B", date_of_month_begin := ⟨2024, 1, 1⟩,
    parameter := "gs", value := 50 }

/-- The two long-format records reshaped from `dfC4`. -/
def recC4a : AggRec :=
  { project := "P1", segment := "B2B", date_of_month_begin := ⟨2024, 1, 1⟩,
    parameter := "gs", value := 30 }

def recC4b : AggRec :=
  { project := "P1", segment := "B2B", date_of_month_begin := ⟨2024, 1, 1⟩,
    parameter := "gs", value := 20 }

/-- Two rows contributing 100 and -50 to the same group: the negative must
net out before the clamp. -/
def dfC3 : List InRow :=
  [ { project_name := some "Acme", currency := some "USD", segment := some "B2B",
      parameter := some "total_gs", cells := [("2024-01-01", some 100)] }
  , { project_name := some "Acme", currency := some "USD", segment := some "B2B",
      parameter := some "total_gs", cells := [("2024-01-01", some (-50))] } ]

/-- The clamped aggregated row of the C3 pandas scenario. -/
def rowC3 : AggRec :=
  { project := "P1", segment := "B2B", date_of_month_begin := ⟨2024, 1, 1⟩,
    parameter := "gs", value := 50 }

/-- The two long-format records reshaped from `dfC3`. -/
def recC3a : AggRec :=
  { project := "P1", segment := "B2B", date_of_month_begin := ⟨2024, 1, 1⟩,
    parameter := "gs", value := 100 }

def recC3b : AggRec :=
  { project := "P1", segment := "B2B", date_of_month_begin := ⟨2024, 1, 1⟩,
    parameter := "gs", value := -50 }

/-- An aggregated record whose metric name is none of gs/ewc/gm. -/
def recC9 : AggRec :=
  { project := "P1", segment := "B2B", date_of_month_begin := ⟨2024, 1, 1⟩,
    parameter := "orders", value := 77 }

/-- The model row the C9 scenario produces: the unknown metric's value is
discarded, all three metric columns are zero. -/
def rowC9out : SalesRow :=
  { id := 0, project := "P1", segment := "B2B", date_of_month_begin := ⟨2024, 1, 1⟩,
    total_gs := 0, total_ewc := 0, total_gm := 0 }

/-- The header row of the polars C3 scenario. -/
def colsPl : List String :=
  ["project_name", "currency", "segment", "data_fields", "2024-01-01"]

/-- Wide rows of the polars C3 scenario: cells 100 and -50 for the same
(project, month, segment, metric). -/
def dfPl : List SrcImportSales.WideRow :=
  [ { project_name := some "Acme", currency := some "USD", segment := some "B2B",
      data_fields := some "total_gs", cells := [("2024-01-01", some 100)] }
  , { project_name := some "Acme", currency := some "USD", segment := some "B2B",
      data_fields := some "total_gs", cells := [("2024-01-01", some (-50))] } ]

/-- Long rows after the polars unpivot of `dfPl` (raw). -/
def recPl100 : SrcImportSales.AggRowPl :=
  { project_id := "P1", segment := "B2B", date_of_month_begin := ⟨2024, 1, 1⟩,
    data_fields := "total_gs", value := 100 }

def recPlNeg50 : SrcImportSales.AggRowPl :=
  { project_id := "P1", segment := "B2B", date_of_month_begin := ⟨2024, 1, 1⟩,
    data_fields := "total_gs", value := -50 }

/-- The -50 cell after the pre-aggregation clamp. -/
def recPl0 : SrcImportSales.AggRowPl :=
  { project_id := "P1", segment := "B2B", date_of_month_begin := ⟨2024, 1, 1⟩,
    data_fields := "total_gs", value := 0 }

/-- What the polars `main_job` actually persists for the group. -/
def rowPl100 : SrcImportSales.AggRowPl :=
  { project_id := "P1", segment := "B2B", date_of_month_begin := ⟨2024, 1, 1⟩,
    data_fields := "total_gs", value := 100 }

/-- What post-aggregation-only clamping yields for the group. -/
def rowPl50 : SrcImportSales.AggRowPl :=
  { project_id := "P1", segment := "B2B", date_of_month_begin := ⟨2024, 1, 1⟩,
    data_fields := "total_gs", value := 50 }

/-- An empty sales store with a fresh-id supply starting at 0. -/
def stEmpty : InsertState :=
  { store := [], nextId := 0, skipped := 0, updated := 0, inserted := 0 }

/-- The single model row of the C1 scenario. -/
def rowC1 : SalesRow :=
  { id := 5, project := "P1", segment := "B2B", date_of_month_begin := ⟨2024, 1, 1⟩,
    total_gs := 10, total_ewc := 2, total_gm := 3 }

/-- The two rows of the C6 scenario (same run, default batch of 500 would put
them in one chunk). -/
def rA : SalesRow :=
  { id := 1, project := "P1", segment := "B2B", date_of_month_begin := ⟨2024, 1, 1⟩,
    total_gs := 10, total_ewc := 0, total_gm := 0 }

def rB : SalesRow :=
  { id := 2, project := "P1", segment := "B2C", date_of_month_begin := ⟨2024, 1, 1⟩,
    total_gs := 20, total_ewc := 0, total_gm := 0 }

/-- A persistence failure on `rB`'s write (e.g. a constraint violation). -/
def oracleB : SalesRow → Bool := fun r => r.segment = "B2C"

/-- A stored `sales` record for the C5 scenario. -/
def storedOld : DbUtils.StoredSale :=
  { id := "old-id", project_id := "P1", segment := "B2B",
    date_of_month_begin := ⟨2024, 1, 1⟩,
    total_gs := 10, total_ewc := 2, total_gm := 3 }

/-- An incoming dataframe row for the same project, segment and month with a
new metric value and a freshly generated identifier. -/
def rowC5 : DbUtils.DRow :=
  { id := "new-id", project := "P1", segment := "B2B",
    date_of_month_begin := ⟨2024, 1, 1⟩,
    total_gs := 99, total_ewc := 2, total_gm := 3 }

/-- The duplicate record the code actually appends for `rowC5`. -/
def insC5 : DbUtils.StoredSale :=
  { id := "new-id", project_id := "P1", segment := "B2B",
    date_of_month_begin := ⟨2024, 1, 1⟩,
    total_gs := 99, total_ewc := 2, total_gm := 3 }

/-- The adversarial C7 input: a well-formed identity carrying a cell of
-1e9. -/
def dfC7 : List InRow :=
  [ { project_name := some "Acme", currency := some "USD", segment := some "B2B",
      parameter := some "total_gs",
      cells := [("2024-01-01", some (-1000000000))] } ]

/-- A row whose project name resolves to no stored project. -/
def rowC8bad : InRow :=
  { project_name := some "Ghost", currency := some "USD", segment := some "B2B",
    parameter := some "total_gs", cells := [("2024-01-01", some 7)] }

/-- A well-resolvable companion row for the C8 scenario. -/
def rowC8good : InRow :=
  { project_name := some "Acme", currency := some "USD", segment := some "B2B",
    parameter := some "total_gs", cells := [("2024-01-01", some 7)] }

end Fixtures

/-! ### Theorems -/

theorem mem_dedupFirstAux {α : Type} [DecidableEq α] :
    ∀ (l seen : List α) (a : α), a ∈ dedupFirstAux seen l ↔ a ∈ l ∧ a ∉ seen := by
  intro l
  induction l with
  | nil => intro seen a; simp [dedupFirstAux]
  | cons b l ih =>
    intro seen a
    by_cases hb : b ∈ seen
    · rw [dedupFirstAux, if_pos hb, ih]
      constructor
      · rintro ⟨h1, h2⟩
        exact ⟨List.mem_cons_of_mem _ h1, h2⟩
      · rintro ⟨h1, h2⟩
        rcases List.mem_cons.mp h1 with rfl | h1
        · exact absurd hb h2
        · exact ⟨h1, h2⟩
    · rw [dedupFirstAux, if_neg hb]
      constructor
      · intro hmem
        rcases List.mem_cons.mp hmem with rfl | hmem
        · exact ⟨List.mem_cons_self a l, hb⟩
        · rcases (ih _ _).mp hmem with ⟨h1, h2⟩
          exact ⟨List.mem_cons_of_mem _ h1, fun hc => h2 (List.mem_cons_of_mem _ hc)⟩
      · rintro ⟨h1, h2⟩
        rcases List.mem_cons.mp h1 with rfl | h1
        · exact List.mem_cons_self a _
        · by_cases hab : a = b
          · subst hab
            exact List.mem_cons_self a _
          · refine List.mem_cons_of_mem _ ((ih _ _).mpr ⟨h1, fun hc => ?_⟩)
            rcases List.mem_cons.mp hc with h | h
            · exact hab h
            · exact h2 h

theorem mem_dedupFirst {α : Type} [DecidableEq α] (l : List α) (a : α) :
    a ∈ dedupFirst l ↔ a ∈ l := by
  unfold dedupFirst
  rw [mem_dedupFirstAux]
  simp

theorem nodup_dedupFirstAux {α : Type} [DecidableEq α] :
    ∀ (l seen : List α), (dedupFirstAux seen l).Nodup := by
  intro l
  induction l with
  | nil => intro seen; simp [dedupFirstAux]
  | cons b l ih =>
    intro seen
    by_cases hb : b ∈ seen
    · rw [dedupFirstAux, if_pos hb]; exact ih seen
    · rw [dedupFirstAux, if_neg hb]
      refine List.Nodup.cons ?_ (ih (b :: seen))
      intro hmem
      exact ((mem_dedupFirstAux _ _ _).mp hmem).2 (List.mem_cons_self b seen)

theorem nodup_dedupFirst {α : Type} [DecidableEq α] (l : List α) :
    (dedupFirst l).Nodup :=
  nodup_dedupFirstAux l []

/-- Splitting a sum over a list by a Boolean predicate. -/
theorem sum_map_filter_split {α : Type} (p : α → Bool) (v : α → Rat) (l : List α) :
    ((l.filter p).map v).sum + ((l.filter (fun x => !p x)).map v).sum
      = (l.map v).sum := by
  induction l with
  | nil => simp
  | cons a l ih =>
    by_cases h : p a
    · simp only [List.filter_cons, h, if_pos, List.map_cons, List.sum_cons,
        Bool.not_eq_true', Bool.not_true]
      rw [if_neg (by simp [h]), add_assoc, ih]
    · have h' : p a = false := by simpa using h
      simp only [List.filter_cons, h']
      rw [if_neg (by simp), if_pos (by simp [h'])]
      simp only [List.map_cons, List.sum_cons]
      rw [← ih]; ring

/-- Total-sum preservation of group-by-sum: summing the group totals over any
duplicate-free key list covering all rows recovers the grand total. -/
theorem sum_sumBy_of_cover {α κ : Type} [DecidableEq κ] (key : α → κ) (v : α → Rat) :
    ∀ (ks : List κ) (recs : List α), ks.Nodup → (∀ r ∈ recs, key r ∈ ks) →
      (ks.map (sumBy key v recs)).sum = (recs.map v).sum := by
  intro ks
  induction ks with
  | nil =>
    intro recs _ hcover
    cases recs with
    | nil => simp
    | cons r l => exact absurd (hcover r (by simp)) (by simp)
  | cons k ks ih =>
    intro recs hnodup hcover
    have hmid : ∀ k' ∈ ks, sumBy key v recs k' = sumBy key v (recs.filter (fun r => !(key r = k : Bool))) k' := by
      intro k' hk'
      have hkk : k ≠ k' := fun h => (List.nodup_cons.mp hnodup).1 (h ▸ hk')
      unfold sumBy
      rw [List.filter_filter]
      have hfeq : recs.filter (fun r => key r = k')
          = recs.filter (fun a => decide (key a = k') && !(key a = k : Bool)) := by
        apply List.filter_congr
        intro r _
        by_cases h : key r = k'
        · have hkne : (k' = k) = False := eq_false (fun hc => hkk hc.symm)
          simp [h, hkne]
        · simp [h]
      rw [hfeq]
    rw [List.map_cons, List.sum_cons, List.map_congr_left hmid,
      ih _ (List.nodup_cons.mp hnodup).2 ?_]
    · exact sum_map_filter_split (fun r => key r = k) v recs
    · intro r hr
      have := hcover r (List.mem_filter.mp hr).1
      have hne : ¬ (key r = k) := by
        have h2 := (List.mem_filter.mp hr).2
        simpa using h2
      cases List.mem_cons.mp this with
      | inl h => exact absurd h hne
      | inr h => exact h

/-- Claim C10: both month shifts always land on day 1, and on month-start
dates (day = 1, month in 1..12 as guaranteed by `datetime.date`) the two
shifts are mutually inverse. -/
theorem C10_month_shift_inverse (d : PDate) :
    (TimeUtils.get_previous_month d).day = 1 ∧
    (TimeUtils.get_next_month d).day = 1 ∧
    (1 ≤ d.month → d.month ≤ 12 → d.day = 1 →
      TimeUtils.get_next_month (TimeUtils.get_previous_month d) = d ∧
      TimeUtils.get_previous_month (TimeUtils.get_next_month d) = d) := by
  obtain ⟨y, m, dd⟩ := d
  refine ⟨?_, ?_, ?_⟩
  · by_cases h : m = 1 <;> simp [TimeUtils.get_previous_month, h]
  · by_cases h : m = 12 <;> simp [TimeUtils.get_next_month, h]
  · intro h1 h12 hday
    dsimp only at h1 h12 hday
    subst hday
    constructor
    · by_cases h : m = 1
      · simp [TimeUtils.get_previous_month, TimeUtils.get_next_month, h]
      · have hne : m - 1 ≠ 12 := by omega
        simp only [TimeUtils.get_previous_month, TimeUtils.get_next_month, if_neg h, if_neg hne]
        simp only [PDate.mk.injEq, true_and, and_true]
        omega
    · by_cases h : m = 12
      · simp [TimeUtils.get_next_month, TimeUtils.get_previous_month, h]
      · have hne : m + 1 ≠ 1 := by omega
        simp only [TimeUtils.get_next_month, TimeUtils.get_previous_month, if_neg h, if_neg hne]
        simp only [PDate.mk.injEq, true_and, and_true]
        omega

/-- Witness for C10 at the concrete month-start date 2024-01-01. -/
theorem C10_witness :
    1 ≤ (PDate.mk 2024 1 1).month ∧ (PDate.mk 2024 1 1).month ≤ 12 ∧
      (PDate.mk 2024 1 1).day = 1 ∧
      TimeUtils.get_next_month (TimeUtils.get_previous_month ⟨2024, 1, 1⟩) = ⟨2024, 1, 1⟩ :=
  ⟨by decide, by decide, by decide,
    ((C10_month_shift_inverse ⟨2024, 1, 1⟩).2.2 (by decide) (by decide) (by decide)).1⟩

/-- Claim C2 as stated is false: headers carrying an explicit day other than
the first are recognized verbatim — `parse_date_dynamic` returns the parsed
day-of-month unchanged (no normalization to day 1), and such a column enters
the date-column set. -/
theorem C2_counterexample :
    TimeUtils.parse_date_dynamic "2024-12-15" = some ⟨2024, 12, 15⟩ ∧
    ImportersImportSales.detect_date_columns ["project_name", "currency", "2024-12-15"] =
      ["2024-12-15"] ∧
    (PDate.mk 2024 12 15).day ≠ 1 := by
  refine ⟨by decide, by decide, by decide⟩

/-- Claim C2 (amended): the recognizer is total — every header either yields
the literally parsed calendar date (day-of-month preserved from the header)
or `none` — and a column enters the date-column set exactly when it is not an
identity column and parses to a date whose year meets the configured
minimum. -/
theorem C2_detect_spec (cols : List String) (col : String) :
    col ∈ ImportersImportSales.detect_date_columns cols ↔
      col ∈ cols ∧ col ∉ ImportersImportSales.FIELD_MAPPING_KEYS ∧
        ∃ d, TimeUtils.parse_date_dynamic col = some d ∧
          ImportersImportSales.MIN_VALID_YEAR ≤ d.year := by
  unfold ImportersImportSales.detect_date_columns
  rw [List.mem_filter]
  constructor
  · rintro ⟨hmem, hcond⟩
    refine ⟨hmem, ?_, ?_⟩
    · intro hk
      rw [if_pos (List.elem_eq_true_of_mem hk)] at hcond
      exact Bool.false_ne_true hcond
    · by_cases hk : ImportersImportSales.FIELD_MAPPING_KEYS.contains col
      · rw [if_pos hk] at hcond
        exact absurd hcond Bool.false_ne_true
      · rw [if_neg hk] at hcond
        cases hp : TimeUtils.parse_date_dynamic col with
        | none => rw [hp] at hcond; exact absurd hcond Bool.false_ne_true
        | some d =>
          rw [hp] at hcond
          exact ⟨d, rfl, of_decide_eq_true hcond⟩
  · rintro ⟨hmem, hnk, d, hp, hy⟩
    refine ⟨hmem, ?_⟩
    have hk : ImportersImportSales.FIELD_MAPPING_KEYS.contains col = false := by
      cases hcontains : ImportersImportSales.FIELD_MAPPING_KEYS.contains col
      · rfl
      · exact absurd (List.mem_of_elem_eq_true hcontains) hnk
    rw [if_neg (fun h => Bool.false_ne_true (hk ▸ h)), hp]
    exact decide_eq_true hy

/-- Witness for C2 (amended): the concrete month header "2024-12-01" is in
the detected set and parses with a year above the configured minimum. -/
theorem C2_witness :
    "2024-12-01" ∈ ImportersImportSales.detect_date_columns ["segment", "2024-12-01"] ∧
      ∃ d, TimeUtils.parse_date_dynamic "2024-12-01" = some d ∧
        ImportersImportSales.MIN_VALID_YEAR ≤ d.year :=
  ⟨(C2_detect_spec ["segment", "2024-12-01"] "2024-12-01").mpr
      ⟨by decide, by decide, ⟨2024, 12, 1⟩, by decide, by decide⟩,
    ((C2_detect_spec ["segment", "2024-12-01"] "2024-12-01").mp (by decide)).2.2⟩

namespace ImportersImportSales

theorem groupAgg_keys_nodup (recs : List AggRec) :
    ((groupAgg recs).map aggKey).Nodup := by
  unfold groupAgg
  rw [List.map_map]
  exact List.Nodup.map (fun a b h => h) (nodup_dedupFirst _)

theorem mem_groupAgg_value (recs : List AggRec) (row : AggRec)
    (h : row ∈ groupAgg recs) :
    row.value = sumBy aggKey (·.value) recs (aggKey row) := by
  unfold groupAgg at h
  rcases List.mem_map.mp h with ⟨k, _, hk⟩
  subst hk
  rfl

theorem groupAgg_total (recs : List AggRec) :
    ((groupAgg recs).map (·.value)).sum = (recs.map (·.value)).sum := by
  have h := sum_sumBy_of_cover aggKey (·.value) (dedupFirst (recs.map aggKey)) recs
    (nodup_dedupFirst _)
    (fun r hr => (mem_dedupFirst _ _).mpr (List.mem_map_of_mem aggKey hr))
  rw [← h]
  unfold groupAgg
  rw [List.map_map]
  rfl

theorem transform_keys_nodup (firstId : Nat) (recs : List AggRec) :
    ((transform_to_model_format firstId recs).map skey).Nodup := by
  unfold transform_to_model_format transformGroup
  rw [List.map_map]
  exact List.Nodup.map (fun a b h => h) (nodup_dedupFirst _)

end ImportersImportSales

/-- Claim C4: the Aggregator emits pairwise-distinct `(project, segment,
month, metric)` keys; each emitted value is the sum of the raw long-format
values of its group; the grand total is preserved (nothing double-counted or
lost); and the reshaped frame handed to the Upsert Engine has
pairwise-distinct unique keys. -/
theorem C4_aggregator_unique_sum (projects : List ImportersImportSales.Project)
    (df : List ImportersImportSales.InRow) (dates : List String) :
    (((ImportersImportSales.aggregate_sales_data projects df dates).1.map
        ImportersImportSales.aggKey).Nodup)
    ∧ (∀ row ∈ (ImportersImportSales.aggregate_sales_data projects df dates).1,
        row.value = sumBy ImportersImportSales.aggKey (·.value)
          (ImportersImportSales.rawRecords projects dates df)
          (ImportersImportSales.aggKey row))
    ∧ (((ImportersImportSales.aggregate_sales_data projects df dates).1.map
          (·.value)).sum
        = ((ImportersImportSales.rawRecords projects dates df).map (·.value)).sum)
    ∧ (∀ firstId recs,
        ((ImportersImportSales.transform_to_model_format firstId recs).map
          ImportersImportSales.skey).Nodup) := by
  refine ⟨ImportersImportSales.groupAgg_keys_nodup _,
    fun row h => ImportersImportSales.mem_groupAgg_value _ row h,
    ImportersImportSales.groupAgg_total _,
    fun firstId recs => ImportersImportSales.transform_keys_nodup firstId recs⟩

/-- Witness for C4: two rows contributing 30 and 20 for the same (project,
month, segment) aggregate to the single row with value 50. -/
theorem C4_witness :
    Fixtures.rowC4 ∈ (ImportersImportSales.aggregate_sales_data Fixtures.projectsC
        Fixtures.dfC4 Fixtures.datesC).1 ∧
      Fixtures.rowC4.value = sumBy ImportersImportSales.aggKey (·.value)
        (ImportersImportSales.rawRecords Fixtures.projectsC Fixtures.datesC Fixtures.dfC4)
        (ImportersImportSales.aggKey Fixtures.rowC4) ∧
      Fixtures.rowC4.value = 50 := by
  have hraw : ImportersImportSales.rawRecords Fixtures.projectsC Fixtures.datesC
      Fixtures.dfC4 = [Fixtures.recC4a, Fixtures.recC4b] := by decide
  have hfil : (ImportersImportSales.rawRecords Fixtures.projectsC Fixtures.datesC
        Fixtures.dfC4).filter
        (fun r => ImportersImportSales.aggKey r = ImportersImportSales.aggKey Fixtures.rowC4)
      = [Fixtures.recC4a, Fixtures.recC4b] := by decide
  have hsum : sumBy ImportersImportSales.aggKey (·.value)
      (ImportersImportSales.rawRecords Fixtures.projectsC Fixtures.datesC Fixtures.dfC4)
      (ImportersImportSales.aggKey Fixtures.rowC4) = 50 := by
    unfold sumBy
    rw [hfil]
    norm_num [Fixtures.recC4a, Fixtures.recC4b]
  have hkmem : ImportersImportSales.aggKey Fixtures.rowC4 ∈
      dedupFirst ((ImportersImportSales.rawRecords Fixtures.projectsC Fixtures.datesC
        Fixtures.dfC4).map ImportersImportSales.aggKey) := by decide
  have hmem : Fixtures.rowC4 ∈ (ImportersImportSales.aggregate_sales_data
      Fixtures.projectsC Fixtures.dfC4 Fixtures.datesC).1 := by
    show Fixtures.rowC4 ∈ ImportersImportSales.groupAgg _
    unfold ImportersImportSales.groupAgg
    refine List.mem_map.mpr ⟨ImportersImportSales.aggKey Fixtures.rowC4, hkmem, ?_⟩
    show ImportersImportSales.AggRec.mk _ _ _ _ _ = Fixtures.rowC4
    rw [hsum]
    rfl
  exact ⟨hmem, (C4_aggregator_unique_sum Fixtures.projectsC Fixtures.dfC4
    Fixtures.datesC).2.1 Fixtures.rowC4 hmem, hsum ▸ ((C4_aggregator_unique_sum
    Fixtures.projectsC Fixtures.dfC4 Fixtures.datesC).2.1 Fixtures.rowC4 hmem)⟩

/-- Claim C8: under the strict policy, a row with a blank/None/"None" project
name or an unresolvable (project name, currency) pair is skipped: the skip
counter increments by exactly 1 for that row, it contributes no output row,
and the remaining rows are processed exactly as if the bad row were absent. -/
theorem C8_strict_skip (projects : List ImportersImportSales.Project)
    (dates : List String) (df₁ df₂ : List ImportersImportSales.InRow)
    (r : ImportersImportSales.InRow)
    (h : ImportersImportSales.resolutionFails projects r) :
    (ImportersImportSales.aggregate_sales_data projects (df₁ ++ r :: df₂) dates).1
      = (ImportersImportSales.aggregate_sales_data projects (df₁ ++ df₂) dates).1
    ∧ (ImportersImportSales.aggregate_sales_data projects (df₁ ++ r :: df₂) dates).2
      = (ImportersImportSales.aggregate_sales_data projects (df₁ ++ df₂) dates).2 + 1 := by
  have hcontrib : ImportersImportSales.rowContrib projects dates r = ([], 1) := by
    unfold ImportersImportSales.rowContrib
    rcases h with h | h
    · rw [if_pos h]
    · by_cases hinv : ImportersImportSales.invalidProjectName r.project_name
      · rw [if_pos hinv]
      · rw [if_neg hinv, h]
  have hraw : ImportersImportSales.rawRecords projects dates (df₁ ++ r :: df₂)
      = ImportersImportSales.rawRecords projects dates (df₁ ++ df₂) := by
    unfold ImportersImportSales.rawRecords
    rw [List.flatMap_append, List.flatMap_cons, hcontrib, List.flatMap_append]
    simp
  have hskip : ImportersImportSales.skippedCount projects dates (df₁ ++ r :: df₂)
      = ImportersImportSales.skippedCount projects dates (df₁ ++ df₂) + 1 := by
    unfold ImportersImportSales.skippedCount
    rw [List.map_append, List.map_cons, hcontrib, List.sum_append, List.sum_cons,
      List.map_append, List.sum_append]
    omega
  unfold ImportersImportSales.aggregate_sales_data
  rw [hraw, hskip]
  exact ⟨rfl, rfl⟩

/-- Witness for C8: the unresolvable "Ghost" row is skipped (counter goes
from 0 to 1) and the output equals that of the resolvable row alone. -/
theorem C8_witness :
    ImportersImportSales.resolutionFails Fixtures.projectsC Fixtures.rowC8bad ∧
    (ImportersImportSales.aggregate_sales_data Fixtures.projectsC
        [Fixtures.rowC8good, Fixtures.rowC8bad] Fixtures.datesC).1
      = (ImportersImportSales.aggregate_sales_data Fixtures.projectsC
          [Fixtures.rowC8good] Fixtures.datesC).1 ∧
    (ImportersImportSales.aggregate_sales_data Fixtures.projectsC
        [Fixtures.rowC8good, Fixtures.rowC8bad] Fixtures.datesC).2
      = (ImportersImportSales.aggregate_sales_data Fixtures.projectsC
          [Fixtures.rowC8good] Fixtures.datesC).2 + 1 := by
  have hfail : ImportersImportSales.resolutionFails Fixtures.projectsC Fixtures.rowC8bad :=
    Or.inr (by decide)
  have := C8_strict_skip Fixtures.projectsC Fixtures.datesC [Fixtures.rowC8good] []
    Fixtures.rowC8bad hfail
  exact ⟨hfail, this.1, this.2⟩

namespace ImportersImportSales

theorem skey_toModelRow (i : Nat) (r : AggRec) :
    skey (toModelRow i r) = aggKey3 r := rfl

theorem modelRows_cons (i : Nat) (r : AggRec) (rs : List AggRec) :
    modelRows i (r :: rs) = toModelRow i r :: modelRows (i + 1) rs := rfl

/-- The metric-column sum of a `(project, segment, month)` group equals the
sum of the raw values of the group's records whose metric name selects that
column. -/
theorem sum_modelRows_metric (metric : SalesRow → Rat) (pname : String)
    (hmetric : ∀ i r, metric (toModelRow i r) = if r.parameter = pname then r.value else 0) :
    ∀ (recs : List AggRec) (firstId : Nat) (k : String × String × PDate),
      sumBy skey metric (modelRows firstId recs) k
        = ((recs.filter (fun q =>
            decide (aggKey3 q = k) && decide (q.parameter = pname))).map (·.value)).sum := by
  intro recs
  induction recs with
  | nil => intro firstId k; simp [sumBy, modelRows]
  | cons r rs ih =>
    intro firstId k
    have hrec := ih (firstId + 1) k
    unfold sumBy at hrec
    rw [modelRows_cons]
    unfold sumBy
    by_cases hk : aggKey3 r = k
    · by_cases hp : r.parameter = pname
      · rw [List.filter_cons_of_pos (by simp [skey_toModelRow, hk]),
          List.filter_cons_of_pos (by simp [hk, hp]),
          List.map_cons, List.map_cons, List.sum_cons, List.sum_cons, hmetric,
          if_pos hp, hrec]
      · rw [List.filter_cons_of_pos (by simp [skey_toModelRow, hk]),
          List.filter_cons_of_neg (by simp [hp]),
          List.map_cons, List.sum_cons, hmetric, if_neg hp, hrec, zero_add]
    · rw [List.filter_cons_of_neg (by simp [skey_toModelRow, hk]),
        List.filter_cons_of_neg (by simp [hk]), hrec]

end ImportersImportSales

/-- Claim C9: a long row whose (lower-cased) metric name is not one of gs,
ewc, gm contributes 0.0 to all three metric columns — its value is silently
discarded — and consequently every output row's metric columns sum only the
records whose metric name selects that column. -/
theorem C9_unknown_parameter_discarded (firstId i : Nat)
    (recs : List ImportersImportSales.AggRec) (r : ImportersImportSales.AggRec)
    (hgs : r.parameter ≠ "gs") (hewc : r.parameter ≠ "ewc") (hgm : r.parameter ≠ "gm") :
    ((ImportersImportSales.toModelRow i r).total_gs = 0 ∧
      (ImportersImportSales.toModelRow i r).total_ewc = 0 ∧
      (ImportersImportSales.toModelRow i r).total_gm = 0)
    ∧ ∀ row ∈ ImportersImportSales.transform_to_model_format firstId recs,
        row.total_gs = ((recs.filter (fun q =>
            decide (ImportersImportSales.aggKey3 q = ImportersImportSales.skey row) &&
            decide (q.parameter = "gs"))).map (·.value)).sum
        ∧ row.total_ewc = ((recs.filter (fun q =>
            decide (ImportersImportSales.aggKey3 q = ImportersImportSales.skey row) &&
            decide (q.parameter = "ewc"))).map (·.value)).sum
        ∧ row.total_gm = ((recs.filter (fun q =>
            decide (ImportersImportSales.aggKey3 q = ImportersImportSales.skey row) &&
            decide (q.parameter = "gm"))).map (·.value)).sum := by
  constructor
  · unfold ImportersImportSales.toModelRow
    refine ⟨?_, ?_, ?_⟩ <;> simp [hgs, hewc, hgm]
  · intro row hrow
    unfold ImportersImportSales.transform_to_model_format
      ImportersImportSales.transformGroup at hrow
    rcases List.mem_map.mp hrow with ⟨k, _, hk⟩
    subst hk
    refine ⟨?_, ?_, ?_⟩
    · exact ImportersImportSales.sum_modelRows_metric (·.total_gs) "gs"
        (fun i r => rfl) recs firstId k
    · exact ImportersImportSales.sum_modelRows_metric (·.total_ewc) "ewc"
        (fun i r => rfl) recs firstId k
    · exact ImportersImportSales.sum_modelRows_metric (·.total_gm) "gm"
        (fun i r => rfl) recs firstId k

/-- Witness for C9: the "orders" record's value 77 is discarded — its model
row has all three metrics zero, and the single output row is all-zero. -/
theorem C9_witness :
    (ImportersImportSales.toModelRow 5 Fixtures.recC9).total_gs = 0 ∧
    (ImportersImportSales.toModelRow 5 Fixtures.recC9).total_ewc = 0 ∧
    (ImportersImportSales.toModelRow 5 Fixtures.recC9).total_gm = 0 ∧
    Fixtures.rowC9out ∈ ImportersImportSales.transform_to_model_format 0 [Fixtures.recC9] ∧
    Fixtures.rowC9out.total_gs = (([Fixtures.recC9].filter (fun q =>
        decide (ImportersImportSales.aggKey3 q = ImportersImportSales.skey Fixtures.rowC9out) &&
        decide (q.parameter = "gs"))).map (·.value)).sum := by
  have hzero := (C9_unknown_parameter_discarded 0 5 [Fixtures.recC9] Fixtures.recC9
    (by decide) (by decide) (by decide)).1
  have htrans : ImportersImportSales.transform_to_model_format 0 [Fixtures.recC9]
      = [Fixtures.rowC9out] := by
    unfold ImportersImportSales.transform_to_model_format
      ImportersImportSales.transformGroup
    have hkeys : dedupFirst ((ImportersImportSales.modelRows 0 [Fixtures.recC9]).map
        ImportersImportSales.skey) = [("P1", "B2B", (⟨2024, 1, 1⟩ : PDate))] := by decide
    rw [hkeys]
    simp only [List.map_cons, List.map_nil]
    congr 1
    have hfil : (ImportersImportSales.modelRows 0 [Fixtures.recC9]).filter
        (fun m => ImportersImportSales.skey m = ("P1", "B2B", (⟨2024, 1, 1⟩ : PDate)))
        = ImportersImportSales.modelRows 0 [Fixtures.recC9] := by decide
    unfold sumBy
    rw [hfil]
    norm_num [ImportersImportSales.modelRows, ImportersImportSales.toModelRow,
      Fixtures.recC9, Fixtures.rowC9out]
    decide
  have hmem : Fixtures.rowC9out ∈ ImportersImportSales.transform_to_model_format 0
      [Fixtures.recC9] := by
    rw [htrans]
    exact List.mem_singleton.mpr rfl
  have hmain := (C9_unknown_parameter_discarded 0 5 [Fixtures.recC9] Fixtures.recC9
    (by decide) (by decide) (by decide)).2 Fixtures.rowC9out hmem
  exact ⟨hzero.1, hzero.2.1, hzero.2.2, hmem, hmain.1⟩

/-- Claim C3 (amended): in the importers pipeline the negative-value floor is
applied only after grouping-and-summation — every cleaned aggregated row's
value is the raw (possibly negative) group sum, clamped once at the end. -/
theorem C3_amended_postagg (projects : List ImportersImportSales.Project)
    (df : List ImportersImportSales.InRow) (dates : List String) :
    ∀ row ∈ ImportersImportSales.clean_negative_values
        (ImportersImportSales.aggregate_sales_data projects df dates).1,
      row.value = (if sumBy ImportersImportSales.aggKey (·.value)
          (ImportersImportSales.rawRecords projects dates df)
          (ImportersImportSales.aggKey row) < 0 then 0
        else sumBy ImportersImportSales.aggKey (·.value)
          (ImportersImportSales.rawRecords projects dates df)
          (ImportersImportSales.aggKey row)) := by
  intro row hrow
  unfold ImportersImportSales.clean_negative_values at hrow
  rcases List.mem_map.mp hrow with ⟨q, hq, hrow⟩
  subst hrow
  have hval := ImportersImportSales.mem_groupAgg_value _ q hq
  have hkey : ImportersImportSales.aggKey
      { q with value := if q.value < 0 then 0 else q.value } = ImportersImportSales.aggKey q := rfl
  rw [hkey]
  show (if q.value < 0 then 0 else q.value) = _
  rw [hval]

/-- Witness for C3 (amended): group cells 100 and -50 net to 50 before the
floor is applied, so the persisted value is 50 (not 100). -/
theorem C3_witness :
    Fixtures.rowC3 ∈ ImportersImportSales.clean_negative_values
        (ImportersImportSales.aggregate_sales_data Fixtures.projectsC Fixtures.dfC3
          Fixtures.datesC).1 ∧
    Fixtures.rowC3.value = (if sumBy ImportersImportSales.aggKey (·.value)
        (ImportersImportSales.rawRecords Fixtures.projectsC Fixtures.datesC Fixtures.dfC3)
        (ImportersImportSales.aggKey Fixtures.rowC3) < 0 then 0
      else sumBy ImportersImportSales.aggKey (·.value)
        (ImportersImportSales.rawRecords Fixtures.projectsC Fixtures.datesC Fixtures.dfC3)
        (ImportersImportSales.aggKey Fixtures.rowC3)) ∧
    sumBy ImportersImportSales.aggKey (·.value)
      (ImportersImportSales.rawRecords Fixtures.projectsC Fixtures.datesC Fixtures.dfC3)
      (ImportersImportSales.aggKey Fixtures.rowC3) = 50 := by
  have hfil : (ImportersImportSales.rawRecords Fixtures.projectsC Fixtures.datesC
        Fixtures.dfC3).filter
        (fun r => ImportersImportSales.aggKey r = ImportersImportSales.aggKey Fixtures.rowC3)
      = [Fixtures.recC3a, Fixtures.recC3b] := by decide
  have hsum : sumBy ImportersImportSales.aggKey (·.value)
      (ImportersImportSales.rawRecords Fixtures.projectsC Fixtures.datesC Fixtures.dfC3)
      (ImportersImportSales.aggKey Fixtures.rowC3) = 50 := by
    unfold sumBy
    rw [hfil]
    norm_num [Fixtures.recC3a, Fixtures.recC3b]
  have hkmem : ImportersImportSales.aggKey Fixtures.rowC3 ∈
      dedupFirst ((ImportersImportSales.rawRecords Fixtures.projectsC Fixtures.datesC
        Fixtures.dfC3).map ImportersImportSales.aggKey) := by decide
  have hqmem : (ImportersImportSales.AggRec.mk "P1" "B2B" ⟨2024, 1, 1⟩ "gs"
      (sumBy ImportersImportSales.aggKey (·.value)
        (ImportersImportSales.rawRecords Fixtures.projectsC Fixtures.datesC Fixtures.dfC3)
        (ImportersImportSales.aggKey Fixtures.rowC3)))
      ∈ (ImportersImportSales.aggregate_sales_data Fixtures.projectsC Fixtures.dfC3
        Fixtures.datesC).1 := by
    show _ ∈ ImportersImportSales.groupAgg _
    unfold ImportersImportSales.groupAgg
    exact List.mem_map.mpr ⟨ImportersImportSales.aggKey Fixtures.rowC3, hkmem, rfl⟩
  have hmem : Fixtures.rowC3 ∈ ImportersImportSales.clean_negative_values
      (ImportersImportSales.aggregate_sales_data Fixtures.projectsC Fixtures.dfC3
        Fixtures.datesC).1 := by
    unfold ImportersImportSales.clean_negative_values
    refine List.mem_map.mpr ⟨_, hqmem, ?_⟩
    rw [hsum]
    norm_num [Fixtures.rowC3]
  exact ⟨hmem, C3_amended_postagg Fixtures.projectsC Fixtures.dfC3 Fixtures.datesC
    Fixtures.rowC3 hmem, hsum⟩

/-- Claim C3 as stated is false: `src/import_sales.py::main_job` (one of the
two cited pipelines) applies `clean_negative_values` to the raw date columns
BEFORE aggregation, so an intermediate -50 is floored to 0 instead of netting
against the +100 of its group — the persisted group total is 100, while
summing first and clamping only the post-aggregation total yields 50. -/
theorem C3_counterexample :
    DfUtils.detect_date_columns Fixtures.colsPl = ["2024-01-01"] ∧
    SrcImportSales.main_job_slice Fixtures.projectsC 0 Fixtures.dfPl ["2024-01-01"]
      = [Fixtures.rowPl100] ∧
    SrcImportSales.postagg_only_slice Fixtures.projectsC 0 Fixtures.dfPl ["2024-01-01"]
      = [Fixtures.rowPl50] ∧
    Fixtures.rowPl100.value ≠ Fixtures.rowPl50.value := by
  refine ⟨by decide, ?_, ?_, by decide⟩
  · have hlong : SrcImportSales.longRows Fixtures.projectsC 0
        (SrcImportSales.clean_negative_values_wide Fixtures.dfPl ["2024-01-01"])
        ["2024-01-01"] = [Fixtures.recPl100, Fixtures.recPl0] := by decide
    have hkeys : dedupFirst ((SrcImportSales.longRows Fixtures.projectsC 0
        (SrcImportSales.clean_negative_values_wide Fixtures.dfPl ["2024-01-01"])
        ["2024-01-01"]).map SrcImportSales.aggKeyPl)
        = [SrcImportSales.aggKeyPl Fixtures.recPl100] := by decide
    have hfil : (SrcImportSales.longRows Fixtures.projectsC 0
        (SrcImportSales.clean_negative_values_wide Fixtures.dfPl ["2024-01-01"])
        ["2024-01-01"]).filter
        (fun r => SrcImportSales.aggKeyPl r = SrcImportSales.aggKeyPl Fixtures.recPl100)
        = [Fixtures.recPl100, Fixtures.recPl0] := by decide
    have hsum : sumBy SrcImportSales.aggKeyPl (·.value)
        (SrcImportSales.longRows Fixtures.projectsC 0
          (SrcImportSales.clean_negative_values_wide Fixtures.dfPl ["2024-01-01"])
          ["2024-01-01"])
        (SrcImportSales.aggKeyPl Fixtures.recPl100) = 100 := by
      unfold sumBy
      rw [hfil]
      norm_num [Fixtures.recPl100, Fixtures.recPl0]
    show SrcImportSales.clean_negative_values_long
        (SrcImportSales.groupAggPl (SrcImportSales.longRows _ _ _ _)) = _
    unfold SrcImportSales.groupAggPl
    rw [hkeys]
    unfold SrcImportSales.clean_negative_values_long
    simp only [List.map_cons, List.map_nil]
    congr 1
    rw [hsum]
    norm_num [Fixtures.rowPl100, Fixtures.recPl100, SrcImportSales.aggKeyPl]
  · have hlong : SrcImportSales.longRows Fixtures.projectsC 0 Fixtures.dfPl
        ["2024-01-01"] = [Fixtures.recPl100, Fixtures.recPlNeg50] := by decide
    have hkeys : dedupFirst ((SrcImportSales.longRows Fixtures.projectsC 0
        Fixtures.dfPl ["2024-01-01"]).map SrcImportSales.aggKeyPl)
        = [SrcImportSales.aggKeyPl Fixtures.recPl100] := by decide
    have hfil : (SrcImportSales.longRows Fixtures.projectsC 0 Fixtures.dfPl
        ["2024-01-01"]).filter
        (fun r => SrcImportSales.aggKeyPl r = SrcImportSales.aggKeyPl Fixtures.recPl100)
        = [Fixtures.recPl100, Fixtures.recPlNeg50] := by decide
    have hsum : sumBy SrcImportSales.aggKeyPl (·.value)
        (SrcImportSales.longRows Fixtures.projectsC 0 Fixtures.dfPl ["2024-01-01"])
        (SrcImportSales.aggKeyPl Fixtures.recPl100) = 50 := by
      unfold sumBy
      rw [hfil]
      norm_num [Fixtures.recPl100, Fixtures.recPlNeg50]
    show SrcImportSales.clean_negative_values_long
        (SrcImportSales.groupAggPl (SrcImportSales.longRows _ _ _ _)) = _
    unfold SrcImportSales.groupAggPl
    rw [hkeys]
    unfold SrcImportSales.clean_negative_values_long
    simp only [List.map_cons, List.map_nil]
    congr 1
    rw [hsum]
    norm_num [Fixtures.rowPl50, Fixtures.recPl100, SrcImportSales.aggKeyPl]

namespace ImportersImportSales

theorem skey_updVals (dst src : SalesRow) : skey (updVals dst src) = skey dst := rfl

theorem id_updVals (dst src : SalesRow) : (updVals dst src).id = dst.id := rfl

theorem updVals_updVals (a b c : SalesRow) : updVals (updVals a b) c = updVals a c := rfl

theorem updVals_of_eq_vals (a b : SalesRow) (h1 : b.total_gs = a.total_gs)
    (h2 : b.total_ewc = a.total_ewc) (h3 : b.total_gm = a.total_gm) :
    updVals a b = a := by
  cases a
  unfold updVals
  simp_all

theorem updateById_map_skey (store : List SalesRow) (i : Nat) (src : SalesRow) :
    (updateById store i src).map skey = store.map skey := by
  unfold updateById
  rw [List.map_map]
  apply List.map_congr_left
  intro rec _
  by_cases h : rec.id = i <;> simp [Function.comp, h, skey_updVals]

theorem updateById_map_id (store : List SalesRow) (i : Nat) (src : SalesRow) :
    (updateById store i src).map (·.id) = store.map (·.id) := by
  unfold updateById
  rw [List.map_map]
  apply List.map_congr_left
  intro rec _
  by_cases h : rec.id = i <;> simp [Function.comp, h, id_updVals]

theorem getOrNone_some {store : List SalesRow} {r rec : SalesRow}
    (h : getOrNone store r = some rec) : rec ∈ store ∧ skey rec = skey r := by
  unfold getOrNone at h
  have h1 := List.find?_some h
  have h2 := List.mem_of_find?_eq_some h
  exact ⟨h2, by simpa using h1⟩

theorem getOrNone_none {store : List SalesRow} {r : SalesRow}
    (h : getOrNone store r = none) : ∀ rec ∈ store, skey rec ≠ skey r := by
  intro rec hrec
  have := List.find?_eq_none.mp h rec hrec
  simpa using this

theorem getOrNone_isSome_of_key {store : List SalesRow} {r : SalesRow}
    (h : skey r ∈ store.map skey) : ∃ rec, getOrNone store r = some rec := by
  rcases List.mem_map.mp h with ⟨q, hq, hkey⟩
  cases hfind : getOrNone store r with
  | some rec => exact ⟨rec, rfl⟩
  | none => exact absurd hkey (getOrNone_none hfind q hq)

theorem updateById_eq_keyMap (store : List SalesRow)
    (hks : (store.map skey).Nodup) (hids : (store.map (·.id)).Nodup)
    (row rec : SalesRow) (h : getOrNone store row = some rec) :
    updateById store rec.id row
      = store.map (fun q => if skey q = skey row then updVals q row else q) := by
  obtain ⟨hmem, hkey⟩ := getOrNone_some h
  unfold updateById
  apply List.map_congr_left
  intro q hq
  by_cases hid : q.id = rec.id
  · have hqrec : q = rec := List.inj_on_of_nodup_map hids hq hmem hid
    rw [if_pos hid, if_pos (by rw [hqrec]; exact hkey)]
  · rw [if_neg hid]
    by_cases hk : skey q = skey row
    · exfalso
      have hqrec : q = rec := List.inj_on_of_nodup_map hks hq hmem (by rw [hk, ← hkey])
      exact hid (by rw [hqrec])
    · rw [if_neg hk]

theorem processRow_skip (fails : SalesRow → Bool) (st : InsertState) (r : SalesRow)
    (h : skipRow fails r = true) :
    processRow fails st r = { st with skipped := st.skipped + 1 } := by
  unfold processRow
  rcases Bool.or_eq_true_iff.mp (by simpa [skipRow] using h) with h1 | h1
  · rw [if_pos h1]
  · by_cases h2 : requiredMissing r
    · rw [if_pos h2]
    · rw [if_neg h2, if_pos h1]

theorem processRow_update (fails : SalesRow → Bool) (st : InsertState)
    (r rec : SalesRow) (h : skipRow fails r = false)
    (hfind : getOrNone st.store r = some rec) :
    processRow fails st r
      = { st with
          store := updateById st.store rec.id r,
          updated := st.updated + 1 } := by
  rcases Bool.or_eq_false_iff.mp (by simpa [skipRow] using h) with ⟨h1, h2⟩
  unfold processRow
  rw [if_neg (by simp [h1]), if_neg (by simp [h2]), hfind]

theorem processRow_insert (fails : SalesRow → Bool) (st : InsertState)
    (r : SalesRow) (h : skipRow fails r = false)
    (hfind : getOrNone st.store r = none) :
    processRow fails st r
      = { st with
          store := st.store ++ [{ r with id := st.nextId }],
          nextId := st.nextId + 1,
          inserted := st.inserted + 1 } := by
  rcases Bool.or_eq_false_iff.mp (by simpa [skipRow] using h) with ⟨h1, h2⟩
  unfold processRow
  rw [if_neg (by simp [h1]), if_neg (by simp [h2]), hfind]

theorem WF_processRow (fails : SalesRow → Bool) (st : InsertState) (row : SalesRow)
    (h : WF st) : WF (processRow fails st row) := by
  obtain ⟨hks, hids, hbound⟩ := h
  by_cases hs : skipRow fails row
  · rw [processRow_skip fails st row hs]
    exact ⟨hks, hids, hbound⟩
  · have hs' : skipRow fails row = false := by simpa using hs
    cases hfind : getOrNone st.store row with
    | some rec =>
      rw [processRow_update fails st row rec hs' hfind]
      refine ⟨?_, ?_, ?_⟩
      · rw [updateById_map_skey]; exact hks
      · rw [updateById_map_id]; exact hids
      · intro q hq
        rcases List.mem_map.mp hq with ⟨p, hp, hpq⟩
        subst hpq
        show (if p.id = rec.id then updVals p row else p).id < st.nextId
        by_cases hpid : p.id = rec.id
        · rw [if_pos hpid, id_updVals]
          exact hbound p hp
        · rw [if_neg hpid]
          exact hbound p hp
    | none =>
      rw [processRow_insert fails st row hs' hfind]
      refine ⟨?_, ?_, ?_⟩
      · rw [List.map_append]
        refine List.Nodup.append hks (List.nodup_singleton _) ?_
        intro k hk1 hk2
        rcases List.mem_map.mp hk1 with ⟨q, hq, hkq⟩
        simp only [List.map_cons, List.map_nil, List.mem_singleton] at hk2
        exact getOrNone_none hfind q hq (by rw [hkq, hk2]; rfl)
      · rw [List.map_append]
        refine List.Nodup.append hids (List.nodup_singleton _) ?_
        intro i hi1 hi2
        rcases List.mem_map.mp hi1 with ⟨q, hq, hiq⟩
        simp only [List.map_cons, List.map_nil, List.mem_singleton] at hi2
        have hb := hbound q hq
        rw [hiq, hi2] at hb
        exact lt_irrefl _ hb
      · intro q hq
        rcases List.mem_append.mp hq with hq | hq
        · have := hbound q hq
          show q.id < st.nextId + 1
          omega
        · rw [List.mem_singleton] at hq
          subst hq
          show ({ row with id := st.nextId } : SalesRow).id < st.nextId + 1
          simp

theorem WF_run (fails : SalesRow → Bool) :
    ∀ (rows : List SalesRow) (st : InsertState), WF st → WF (bulk_insert fails st rows) := by
  intro rows
  induction rows with
  | nil => intro st h; exact h
  | cons r rest ih =>
    intro st h
    exact ih (processRow fails st r) (WF_processRow fails st r h)

theorem keys_mono_processRow (fails : SalesRow → Bool) (st : InsertState)
    (row : SalesRow) : ∀ k ∈ st.store.map skey, k ∈ (processRow fails st row).store.map skey := by
  intro k hk
  by_cases hs : skipRow fails row
  · rwa [processRow_skip fails st row hs]
  · have hs' : skipRow fails row = false := by simpa using hs
    cases hfind : getOrNone st.store row with
    | some rec =>
      rw [processRow_update fails st row rec hs' hfind]
      show k ∈ (updateById st.store rec.id row).map skey
      rwa [updateById_map_skey]
    | none =>
      rw [processRow_insert fails st row hs' hfind]
      show k ∈ (st.store ++ [{ row with id := st.nextId }]).map skey
      rw [List.map_append]
      exact List.mem_append_left _ hk

theorem keys_mono_run (fails : SalesRow → Bool) :
    ∀ (rows : List SalesRow) (st : InsertState) (k : String × String × PDate),
      k ∈ st.store.map skey → k ∈ (bulk_insert fails st rows).store.map skey := by
  intro rows
  induction rows with
  | nil => intro st k h; exact h
  | cons r rest ih =>
    intro st k h
    exact ih (processRow fails st r) k (keys_mono_processRow fails st r k h)

theorem key_present_after (fails : SalesRow → Bool) :
    ∀ (rows : List SalesRow) (st : InsertState) (r : SalesRow), r ∈ rows →
      skipRow fails r = false →
      skey r ∈ (bulk_insert fails st rows).store.map skey := by
  intro rows
  induction rows with
  | nil => intro st r h; cases h
  | cons r0 rest ih =>
    intro st r hr hs
    rcases List.mem_cons.mp hr with rfl | hr
    · refine keys_mono_run fails rest (processRow fails st r) (skey r) ?_
      cases hfind : getOrNone st.store r with
      | some rec =>
        rw [processRow_update fails st r rec hs hfind]
        show skey r ∈ (updateById st.store rec.id r).map skey
        rw [updateById_map_skey]
        obtain ⟨hmem, hkey⟩ := getOrNone_some hfind
        exact hkey ▸ List.mem_map_of_mem skey hmem
      | none =>
        rw [processRow_insert fails st r hs hfind]
        show skey r ∈ (st.store ++ [{ r with id := st.nextId }]).map skey
        rw [List.map_append]
        exact List.mem_append_right _ (by simp [skey])
    · exact ih (processRow fails st r0) r hr hs

end ImportersImportSales

namespace ImportersImportSales

theorem writeFold_nil (fails : SalesRow → Bool) (rec : SalesRow) :
    writeFold fails [] rec = rec := rfl

theorem writeFold_cons (fails : SalesRow → Bool) (r : SalesRow)
    (rest : List SalesRow) (rec : SalesRow) :
    writeFold fails (r :: rest) rec = writeFold fails rest (writeStep fails rec r) := rfl

theorem skey_writeStep (fails : SalesRow → Bool) (rec row : SalesRow) :
    skey (writeStep fails rec row) = skey rec := by
  unfold writeStep
  by_cases h1 : skipRow fails row
  · rw [if_pos h1]
  · rw [if_neg h1]
    by_cases h2 : skey rec = skey row
    · rw [if_pos h2, skey_updVals]
    · rw [if_neg h2]

theorem skey_writeFold (fails : SalesRow → Bool) :
    ∀ (rows : List SalesRow) (rec : SalesRow),
      skey (writeFold fails rows rec) = skey rec := by
  intro rows
  induction rows with
  | nil => intro rec; rfl
  | cons r rest ih =>
    intro rec
    rw [writeFold_cons, ih, skey_writeStep]

theorem writeStep_skip (fails : SalesRow → Bool) (rec row : SalesRow)
    (h : skipRow fails row = true) : writeStep fails rec row = rec := by
  unfold writeStep
  rw [if_pos h]

theorem writeStep_no_skip (fails : SalesRow → Bool) (rec row : SalesRow)
    (h : skipRow fails row = false) :
    writeStep fails rec row = if skey rec = skey row then updVals rec row else rec := by
  unfold writeStep
  rw [if_neg (by simp [h])]

theorem updVals_writeStep (fails : SalesRow → Bool) (rec row q : SalesRow) :
    updVals (writeStep fails rec row) q = updVals rec q := by
  unfold writeStep
  by_cases h1 : skipRow fails row
  · rw [if_pos h1]
  · rw [if_neg h1]
    by_cases h2 : skey rec = skey row
    · rw [if_pos h2, updVals_updVals]
    · rw [if_neg h2]

theorem lastWrite_cons (fails : SalesRow → Bool) (r : SalesRow)
    (rest : List SalesRow) (k : String × String × PDate) :
    lastWrite fails (r :: rest) k
      = match lastWrite fails rest k with
        | some q => some q
        | none =>
          if !skipRow fails r && decide (skey r = k) then some r else none := by
  unfold lastWrite
  rw [List.reverse_cons, List.find?_append]
  cases h : List.find? (fun r => !skipRow fails r && decide (skey r = k)) rest.reverse with
  | some q => simp
  | none =>
    by_cases hc : (!skipRow fails r && decide (skey r = k)) = true
    · simp [List.find?, hc]
    · have hc' : (!skipRow fails r && decide (skey r = k)) = false := by simpa using hc
      simp [List.find?, hc']

theorem writeFold_eq_lastWrite (fails : SalesRow → Bool) :
    ∀ (rows : List SalesRow) (rec : SalesRow),
      writeFold fails rows rec
        = match lastWrite fails rows (skey rec) with
          | some q => updVals rec q
          | none => rec := by
  intro rows
  induction rows with
  | nil => intro rec; rfl
  | cons r rest ih =>
    intro rec
    rw [writeFold_cons, ih (writeStep fails rec r), skey_writeStep, lastWrite_cons]
    cases h : lastWrite fails rest (skey rec) with
    | some q => exact updVals_writeStep fails rec r q
    | none =>
      by_cases hc : (!skipRow fails r && decide (skey r = skey rec)) = true
      · rw [if_pos hc]
        rcases Bool.and_eq_true_iff.mp hc with ⟨hc1, hc2⟩
        have hskip : skipRow fails r = false := by simpa using hc1
        have hkey : skey r = skey rec := of_decide_eq_true hc2
        show writeStep fails rec r = updVals rec r
        unfold writeStep
        rw [if_neg (by simp [hskip]), if_pos hkey.symm]
      · rw [if_neg hc]
        show writeStep fails rec r = rec
        unfold writeStep
        by_cases h1 : skipRow fails r
        · rw [if_pos h1]
        · have h1' : skipRow fails r = false := by simpa using h1
          rw [if_neg h1]
          have hkne : ¬ skey rec = skey r := by
            intro hk
            exact hc (by simp [h1', hk])
          rw [if_neg hkne]

theorem writeFold_idem (fails : SalesRow → Bool) (rows : List SalesRow)
    (rec : SalesRow) :
    writeFold fails rows (writeFold fails rows rec) = writeFold fails rows rec := by
  rw [writeFold_eq_lastWrite fails rows (writeFold fails rows rec), skey_writeFold]
  cases h : lastWrite fails rows (skey rec) with
  | some q =>
    rw [writeFold_eq_lastWrite fails rows rec, h]
    exact updVals_updVals rec q q
  | none =>
    rw [writeFold_eq_lastWrite fails rows rec, h]

theorem mem_insertsFrom (fails : SalesRow → Bool) :
    ∀ (rows : List SalesRow) (ks : List (String × String × PDate)) (n : Nat)
      (x : SalesRow), x ∈ insertsFrom fails rows ks n →
      ∃ (pre rest : List SalesRow) (r : SalesRow) (i : Nat),
        rows = pre ++ r :: rest ∧ skipRow fails r = false ∧
          x = writeFold fails rest { r with id := i } := by
  intro rows
  induction rows with
  | nil => intro ks n x h; cases h
  | cons r rest ih =>
    intro ks n x h
    unfold insertsFrom at h
    by_cases h1 : skipRow fails r
    · rw [if_pos h1] at h
      rcases ih ks n x h with ⟨pre, tail, r', i, hrows, hskip, hx⟩
      exact ⟨r :: pre, tail, r', i, by rw [hrows]; rfl, hskip, hx⟩
    · have h1' : skipRow fails r = false := by simpa using h1
      rw [if_neg h1] at h
      by_cases h2 : skey r ∈ ks
      · rw [if_pos h2] at h
        rcases ih ks n x h with ⟨pre, tail, r', i, hrows, hskip, hx⟩
        exact ⟨r :: pre, tail, r', i, by rw [hrows]; rfl, hskip, hx⟩
      · rw [if_neg h2] at h
        rcases List.mem_cons.mp h with hx | hx
        · exact ⟨[], rest, r, n, rfl, h1', hx⟩
        · rcases ih _ _ x hx with ⟨pre, tail, r', i, hrows, hskip, hx⟩
          exact ⟨r :: pre, tail, r', i, by rw [hrows]; rfl, hskip, hx⟩

theorem lastWrite_split (fails : SalesRow → Bool) (pre rest : List SalesRow)
    (r : SalesRow) (h : skipRow fails r = false) :
    lastWrite fails (pre ++ r :: rest) (skey r)
      = match lastWrite fails rest (skey r) with
        | some q => some q
        | none => some r := by
  unfold lastWrite
  rw [List.reverse_append, List.reverse_cons, List.append_assoc,
    List.find?_append]
  cases hfind : List.find? (fun x => !skipRow fails x && decide (skey x = skey r))
      rest.reverse with
  | some q => simp
  | none =>
    have hr : List.find? (fun x => !skipRow fails x && decide (skey x = skey r))
        ([r] ++ pre.reverse) = some r := by
      rw [List.find?_append]
      have h1 : List.find? (fun x => !skipRow fails x && decide (skey x = skey r)) [r]
          = some r := by
        simp [List.find?, h]
      simp [h1]
    rw [Option.none_or, hr]

theorem writeFold_fix_of_insert (fails : SalesRow → Bool)
    (pre rest : List SalesRow) (r : SalesRow) (i : Nat)
    (hskip : skipRow fails r = false) :
    writeFold fails (pre ++ r :: rest) (writeFold fails rest { r with id := i })
      = writeFold fails rest { r with id := i } := by
  have hkx : skey (writeFold fails rest { r with id := i }) = skey r := by
    rw [skey_writeFold]
    rfl
  rw [writeFold_eq_lastWrite, hkx, lastWrite_split fails pre rest r hskip]
  cases h : lastWrite fails rest (skey r) with
  | some q =>
    have hx : writeFold fails rest { r with id := i } = updVals { r with id := i } q := by
      rw [writeFold_eq_lastWrite]
      have hk : skey ({ r with id := i } : SalesRow) = skey r := rfl
      rw [hk, h]
    show updVals (writeFold fails rest { r with id := i }) q
      = writeFold fails rest { r with id := i }
    rw [hx, updVals_updVals]
  | none =>
    have hx : writeFold fails rest { r with id := i } = { r with id := i } := by
      rw [writeFold_eq_lastWrite]
      have hk : skey ({ r with id := i } : SalesRow) = skey r := rfl
      rw [hk, h]
    show updVals (writeFold fails rest { r with id := i }) r
      = writeFold fails rest { r with id := i }
    rw [hx]
    exact updVals_of_eq_vals _ _ rfl rfl rfl

theorem insertsFrom_nil_of_present (fails : SalesRow → Bool) :
    ∀ (rows : List SalesRow) (ks : List (String × String × PDate)) (n : Nat),
      (∀ r ∈ rows, skipRow fails r = false → skey r ∈ ks) →
      insertsFrom fails rows ks n = [] := by
  intro rows
  induction rows with
  | nil => intro ks n _; rfl
  | cons r rest ih =>
    intro ks n hcover
    unfold insertsFrom
    by_cases h1 : skipRow fails r
    · rw [if_pos h1]
      exact ih ks n (fun q hq hs => hcover q (List.mem_cons_of_mem _ hq) hs)
    · have h1' : skipRow fails r = false := by simpa using h1
      rw [if_neg h1, if_pos (hcover r (List.mem_cons_self r rest) h1')]
      exact ih ks n (fun q hq hs => hcover q (List.mem_cons_of_mem _ hq) hs)

theorem map_id_of_forall {α : Type} (l : List α) (f : α → α)
    (h : ∀ a ∈ l, f a = a) : l.map f = l := by
  induction l with
  | nil => rfl
  | cons a l ih =>
    rw [List.map_cons, h a (List.mem_cons_self a l),
      ih (fun b hb => h b (List.mem_cons_of_mem a hb))]

theorem runNF (fails : SalesRow → Bool) :
    ∀ (rows : List SalesRow) (st : InsertState), WF st →
      (bulk_insert fails st rows).store
        = st.store.map (writeFold fails rows)
          ++ insertsFrom fails rows (st.store.map skey) st.nextId
      ∧ (bulk_insert fails st rows).nextId
        = st.nextId + (insertsFrom fails rows (st.store.map skey) st.nextId).length := by
  intro rows
  induction rows with
  | nil =>
    intro st _
    constructor
    · show st.store = st.store.map (writeFold fails []) ++ []
      rw [List.append_nil, map_id_of_forall st.store (writeFold fails []) (fun a _ => rfl)]
    · rfl
  | cons r rest ih =>
    intro st hWF
    have hrun : bulk_insert fails st (r :: rest)
        = bulk_insert fails (processRow fails st r) rest := rfl
    by_cases h1 : skipRow fails r
    · rw [hrun, processRow_skip fails st r h1]
      have hWF' : WF { st with skipped := st.skipped + 1 } := hWF
      rcases ih { st with skipped := st.skipped + 1 } hWF' with ⟨hstore, hnext⟩
      dsimp only at hstore hnext
      have hmap : st.store.map (writeFold fails rest)
          = st.store.map (writeFold fails (r :: rest)) := by
        apply List.map_congr_left
        intro q _
        rw [writeFold_cons, writeStep_skip fails q r h1]
      have hins : insertsFrom fails (r :: rest) (st.store.map skey) st.nextId
          = insertsFrom fails rest (st.store.map skey) st.nextId := by
        simp only [insertsFrom]
        rw [if_pos h1]
      constructor
      · rw [hstore, hins, ← hmap]
      · rw [hnext, hins]
    · have h1' : skipRow fails r = false := by simpa using h1
      cases hfind : getOrNone st.store r with
      | some rec =>
        obtain ⟨hmem, hkey⟩ := getOrNone_some hfind
        rw [hrun, processRow_update fails st r rec h1' hfind]
        have hWF' : WF { st with
            store := updateById st.store rec.id r,
            updated := st.updated + 1 } := by
          have := WF_processRow fails st r hWF
          rwa [processRow_update fails st r rec h1' hfind] at this
        rcases ih _ hWF' with ⟨hstore, hnext⟩
        dsimp only at hstore hnext
        have hkeys : (updateById st.store rec.id r).map skey = st.store.map skey :=
          updateById_map_skey st.store rec.id r
        have hkmap : updateById st.store rec.id r
            = st.store.map (fun q => if skey q = skey r then updVals q r else q) :=
          updateById_eq_keyMap st.store hWF.1 hWF.2.1 r rec hfind
        have hmap : (updateById st.store rec.id r).map (writeFold fails rest)
            = st.store.map (writeFold fails (r :: rest)) := by
          rw [hkmap, List.map_map]
          apply List.map_congr_left
          intro q _
          show writeFold fails rest (if skey q = skey r then updVals q r else q)
            = writeFold fails (r :: rest) q
          rw [writeFold_cons, writeStep_no_skip fails q r h1']
        have hins : insertsFrom fails (r :: rest) (st.store.map skey) st.nextId
            = insertsFrom fails rest (st.store.map skey) st.nextId := by
          simp only [insertsFrom]
          rw [if_neg (by simp [h1']), if_pos (hkey ▸ List.mem_map_of_mem skey hmem)]
        constructor
        · rw [hstore, hkeys, hmap, hins]
        · rw [hnext, hkeys, hins]
      | none =>
        rw [hrun, processRow_insert fails st r h1' hfind]
        have hWF' : WF { st with
            store := st.store ++ [{ r with id := st.nextId }],
            nextId := st.nextId + 1,
            inserted := st.inserted + 1 } := by
          have := WF_processRow fails st r hWF
          rwa [processRow_insert fails st r h1' hfind] at this
        rcases ih _ hWF' with ⟨hstore, hnext⟩
        dsimp only at hstore hnext
        have hknew : ((st.store ++ [{ r with id := st.nextId }]).map skey)
            = st.store.map skey ++ [skey r] := by
          rw [List.map_append]
          rfl
        have hmap : st.store.map (writeFold fails rest)
            = st.store.map (writeFold fails (r :: rest)) := by
          apply List.map_congr_left
          intro q hq
          have hkne : ¬ skey q = skey r := getOrNone_none hfind q hq
          rw [writeFold_cons, writeStep_no_skip fails q r h1', if_neg hkne]
        have hins : insertsFrom fails (r :: rest) (st.store.map skey) st.nextId
            = writeFold fails rest { r with id := st.nextId }
              :: insertsFrom fails rest (st.store.map skey ++ [skey r]) (st.nextId + 1) := by
          simp only [insertsFrom]
          have hnotin : ¬ skey r ∈ st.store.map skey := by
            intro hk
            rcases List.mem_map.mp hk with ⟨q, hq, hkq⟩
            exact getOrNone_none hfind q hq hkq
          rw [if_neg (by simp [h1']), if_neg hnotin]
        constructor
        · rw [hstore, hknew, hins, List.map_append, hmap, List.append_assoc]
          rfl
        · rw [hnext, hknew, hins, List.length_cons]
          omega

end ImportersImportSales

namespace ImportersImportSales

theorem processRow_congr (fails : SalesRow → Bool) (st₁ st₂ : InsertState)
    (row : SalesRow) (hs : st₁.store = st₂.store) (hn : st₁.nextId = st₂.nextId) :
    (processRow fails st₁ row).store = (processRow fails st₂ row).store ∧
      (processRow fails st₁ row).nextId = (processRow fails st₂ row).nextId := by
  by_cases hsk : skipRow fails row
  · rw [processRow_skip fails st₁ row hsk, processRow_skip fails st₂ row hsk]
    exact ⟨hs, hn⟩
  · have hsk' : skipRow fails row = false := by simpa using hsk
    have hfind : getOrNone st₁.store row = getOrNone st₂.store row := by rw [hs]
    cases h2 : getOrNone st₂.store row with
    | some rec =>
      rw [processRow_update fails st₁ row rec hsk' (hfind.trans h2),
        processRow_update fails st₂ row rec hsk' h2]
      constructor
      · show updateById st₁.store rec.id row = updateById st₂.store rec.id row
        rw [hs]
      · exact hn
    | none =>
      rw [processRow_insert fails st₁ row hsk' (hfind.trans h2),
        processRow_insert fails st₂ row hsk' h2]
      constructor
      · show st₁.store ++ [{ row with id := st₁.nextId }]
          = st₂.store ++ [{ row with id := st₂.nextId }]
        rw [hs, hn]
      · show st₁.nextId + 1 = st₂.nextId + 1
        rw [hn]

theorem run_congr (fails : SalesRow → Bool) :
    ∀ (rows : List SalesRow) (st₁ st₂ : InsertState),
      st₁.store = st₂.store → st₁.nextId = st₂.nextId →
      (bulk_insert fails st₁ rows).store = (bulk_insert fails st₂ rows).store ∧
        (bulk_insert fails st₁ rows).nextId = (bulk_insert fails st₂ rows).nextId := by
  intro rows
  induction rows with
  | nil => intro st₁ st₂ hs hn; exact ⟨hs, hn⟩
  | cons r rest ih =>
    intro st₁ st₂ hs hn
    have h := processRow_congr fails st₁ st₂ r hs hn
    exact ih _ _ h.1 h.2

end ImportersImportSales

/-- Claim C1: the per-row upsert of the sales importer is idempotent — over
any store satisfying its declared unique constraint and primary key, the
second identical run performs only updates writing identical values, so the
store after the second run equals the store after the first (no duplicate
unique keys, unchanged row count, unchanged metric values), and no fresh
identifier is consumed. -/
theorem C1_upsert_idempotent (st : ImportersImportSales.InsertState)
    (rows : List ImportersImportSales.SalesRow) (h : ImportersImportSales.WF st) :
    ((ImportersImportSales.bulk_insert ImportersImportSales.noFail st rows).store.map
      ImportersImportSales.skey).Nodup ∧
    (ImportersImportSales.bulk_insert ImportersImportSales.noFail
        (ImportersImportSales.bulk_insert ImportersImportSales.noFail st rows) rows).store
      = (ImportersImportSales.bulk_insert ImportersImportSales.noFail st rows).store ∧
    (ImportersImportSales.bulk_insert ImportersImportSales.noFail
        (ImportersImportSales.bulk_insert ImportersImportSales.noFail st rows) rows).nextId
      = (ImportersImportSales.bulk_insert ImportersImportSales.noFail st rows).nextId := by
  have h1 := ImportersImportSales.WF_run ImportersImportSales.noFail rows st h
  have hNF0 := ImportersImportSales.runNF ImportersImportSales.noFail rows st h
  have hNF1 := ImportersImportSales.runNF ImportersImportSales.noFail rows
    (ImportersImportSales.bulk_insert ImportersImportSales.noFail st rows) h1
  have hins : ImportersImportSales.insertsFrom ImportersImportSales.noFail rows
      ((ImportersImportSales.bulk_insert ImportersImportSales.noFail st rows).store.map
        ImportersImportSales.skey)
      (ImportersImportSales.bulk_insert ImportersImportSales.noFail st rows).nextId = [] :=
    ImportersImportSales.insertsFrom_nil_of_present ImportersImportSales.noFail rows _ _
      (fun r hr hs => ImportersImportSales.key_present_after ImportersImportSales.noFail
        rows st r hr hs)
  have hfix : ∀ rec ∈ (ImportersImportSales.bulk_insert ImportersImportSales.noFail
      st rows).store,
      ImportersImportSales.writeFold ImportersImportSales.noFail rows rec = rec := by
    intro rec hrec
    rw [hNF0.1] at hrec
    rcases List.mem_append.mp hrec with hrec | hrec
    · rcases List.mem_map.mp hrec with ⟨q, _, hq⟩
      rw [← hq]
      exact ImportersImportSales.writeFold_idem ImportersImportSales.noFail rows q
    · rcases ImportersImportSales.mem_insertsFrom ImportersImportSales.noFail rows _ _
        rec hrec with ⟨pre, tail, r, i, hrows, hskip, hx⟩
      rw [hx, hrows]
      exact ImportersImportSales.writeFold_fix_of_insert ImportersImportSales.noFail
        pre tail r i hskip
  refine ⟨h1.1, ?_, ?_⟩
  · rw [hNF1.1, hins, List.append_nil,
      ImportersImportSales.map_id_of_forall _
        (ImportersImportSales.writeFold ImportersImportSales.noFail rows) hfix]
  · rw [hNF1.2, hins]
    simp

/-- Witness for C1 at the empty well-formed store and a one-row input. -/
theorem C1_witness :
    ImportersImportSales.WF Fixtures.stEmpty ∧
    (ImportersImportSales.bulk_insert ImportersImportSales.noFail
        (ImportersImportSales.bulk_insert ImportersImportSales.noFail Fixtures.stEmpty
          [Fixtures.rowC1]) [Fixtures.rowC1]).store
      = (ImportersImportSales.bulk_insert ImportersImportSales.noFail Fixtures.stEmpty
          [Fixtures.rowC1]).store := by
  have hWF : ImportersImportSales.WF Fixtures.stEmpty :=
    ⟨by simp [Fixtures.stEmpty], by simp [Fixtures.stEmpty], by simp [Fixtures.stEmpty]⟩
  exact ⟨hWF, (C1_upsert_idempotent Fixtures.stEmpty [Fixtures.rowC1] hWF).2.1⟩

/-- Claim C6 as stated is false: the sales upsert writes row-at-a-time with
per-row exception handling, so after a persistence failure on the second row
of a two-row batch the first row's write remains — one of two rows persisted,
neither all-or-nothing outcome. -/
theorem C6_counterexample :
    (ImportersImportSales.bulk_insert Fixtures.oracleB Fixtures.stEmpty
      [Fixtures.rA, Fixtures.rB]).store.length = 1 ∧
    (ImportersImportSales.bulk_insert Fixtures.oracleB Fixtures.stEmpty
      [Fixtures.rA, Fixtures.rB]).skipped = 1 ∧
    ¬((ImportersImportSales.bulk_insert Fixtures.oracleB Fixtures.stEmpty
        [Fixtures.rA, Fixtures.rB]).store.length = 0 ∨
      (ImportersImportSales.bulk_insert Fixtures.oracleB Fixtures.stEmpty
        [Fixtures.rA, Fixtures.rB]).store.length = 2) := by
  refine ⟨by decide, by decide, by decide⟩

/-- Claim C6 (amended): failure handling is per-row, not per-chunk — a run
with persistence failures leaves exactly the store (and fresh-id supply) of a
failure-free run over the non-failing rows; failing rows are skipped and all
other writes, including earlier rows of the same batch, persist. -/
theorem C6_amended_per_row (fails : ImportersImportSales.SalesRow → Bool) :
    ∀ (rows : List ImportersImportSales.SalesRow)
      (st : ImportersImportSales.InsertState),
      (ImportersImportSales.bulk_insert fails st rows).store
        = (ImportersImportSales.bulk_insert ImportersImportSales.noFail st
            (rows.filter (fun r => !fails r))).store
      ∧ (ImportersImportSales.bulk_insert fails st rows).nextId
        = (ImportersImportSales.bulk_insert ImportersImportSales.noFail st
            (rows.filter (fun r => !fails r))).nextId := by
  intro rows
  induction rows with
  | nil => intro st; exact ⟨rfl, rfl⟩
  | cons r rest ih =>
    intro st
    rw [List.filter_cons]
    by_cases hf : fails r
    · rw [if_neg (by simp [hf])]
      have hsk : ImportersImportSales.skipRow fails r = true := by
        simp [ImportersImportSales.skipRow, hf]
      show (ImportersImportSales.bulk_insert fails
            (ImportersImportSales.processRow fails st r) rest).store
          = (ImportersImportSales.bulk_insert ImportersImportSales.noFail st
              (rest.filter (fun r => !fails r))).store
        ∧ (ImportersImportSales.bulk_insert fails
            (ImportersImportSales.processRow fails st r) rest).nextId
          = (ImportersImportSales.bulk_insert ImportersImportSales.noFail st
              (rest.filter (fun r => !fails r))).nextId
      rw [ImportersImportSales.processRow_skip fails st r hsk]
      have hcong := ImportersImportSales.run_congr fails rest
        { st with skipped := st.skipped + 1 } st rfl rfl
      exact ⟨hcong.1.trans (ih st).1, hcong.2.trans (ih st).2⟩
    · have hf' : fails r = false := by simpa using hf
      rw [if_pos (by simp [hf'])]
      show (ImportersImportSales.bulk_insert fails
            (ImportersImportSales.processRow fails st r) rest).store
          = (ImportersImportSales.bulk_insert ImportersImportSales.noFail
              (ImportersImportSales.processRow ImportersImportSales.noFail st r)
              (rest.filter (fun r => !fails r))).store
        ∧ (ImportersImportSales.bulk_insert fails
            (ImportersImportSales.processRow fails st r) rest).nextId
          = (ImportersImportSales.bulk_insert ImportersImportSales.noFail
              (ImportersImportSales.processRow ImportersImportSales.noFail st r)
              (rest.filter (fun r => !fails r))).nextId
      have hpr : ImportersImportSales.processRow fails st r
          = ImportersImportSales.processRow ImportersImportSales.noFail st r := by
        unfold ImportersImportSales.processRow
        by_cases hreq : ImportersImportSales.requiredMissing r
        · rw [if_pos hreq, if_pos hreq]
        · rw [if_neg hreq, if_neg hreq, if_neg (by simp [hf']),
            if_neg (by simp [ImportersImportSales.noFail])]
      rw [hpr]
      exact ih (ImportersImportSales.processRow ImportersImportSales.noFail st r)

namespace ImportersImportSales

theorem sumBy_nonneg {α κ : Type} [DecidableEq κ] (key : α → κ) (v : α → Rat)
    (recs : List α) (k : κ) (h : ∀ r ∈ recs, 0 ≤ v r) :
    0 ≤ sumBy key v recs k := by
  unfold sumBy
  apply List.sum_nonneg
  intro x hx
  rcases List.mem_map.mp hx with ⟨r, hr, rfl⟩
  exact h r (List.mem_filter.mp hr).1

theorem clean_nonneg (recs : List AggRec) :
    ∀ r ∈ clean_negative_values recs, 0 ≤ r.value := by
  intro r hr
  rcases List.mem_map.mp hr with ⟨q, _, rfl⟩
  dsimp only
  by_cases h : q.value < 0
  · rw [if_pos h]
  · rw [if_neg h]
    exact le_of_not_lt h

theorem mem_modelRows : ∀ (recs : List AggRec) (n : Nat) (m : SalesRow),
    m ∈ modelRows n recs → ∃ i r, r ∈ recs ∧ m = toModelRow i r := by
  intro recs
  induction recs with
  | nil =>
    intro n m h
    simp [modelRows] at h
  | cons r rs ih =>
    intro n m h
    rw [modelRows] at h
    rcases List.mem_cons.mp h with rfl | h
    · exact ⟨n, r, List.mem_cons_self r rs, rfl⟩
    · rcases ih (n + 1) m h with ⟨i, q, hq, hm⟩
      exact ⟨i, q, List.mem_cons_of_mem _ hq, hm⟩

theorem toModelRow_nonneg (i : Nat) (r : AggRec) (h : 0 ≤ r.value) :
    nonnegRow (toModelRow i r) := by
  unfold nonnegRow toModelRow
  refine ⟨?_, ?_, ?_⟩ <;> dsimp only <;> split
  · exact h
  · exact le_refl 0
  · exact h
  · exact le_refl 0
  · exact h
  · exact le_refl 0

theorem transformGroup_nonneg (mr : List SalesRow)
    (h : ∀ m ∈ mr, nonnegRow m) :
    ∀ x ∈ transformGroup mr, nonnegRow x := by
  intro x hx
  rcases List.mem_map.mp hx with ⟨k, _, rfl⟩
  refine ⟨?_, ?_, ?_⟩ <;> dsimp only
  · exact sumBy_nonneg skey (·.total_gs) mr k (fun m hm => (h m hm).1)
  · exact sumBy_nonneg skey (·.total_ewc) mr k (fun m hm => (h m hm).2.1)
  · exact sumBy_nonneg skey (·.total_gm) mr k (fun m hm => (h m hm).2.2)

theorem pipeline_nonneg (projects : List Project) (firstId : Nat)
    (df : List InRow) (dates : List String) :
    ∀ m ∈ pipeline projects firstId df dates, nonnegRow m := by
  intro m hm
  unfold pipeline transform_to_model_format at hm
  apply transformGroup_nonneg _ _ m hm
  intro x hx
  rcases mem_modelRows _ _ x hx with ⟨i, r, hr, rfl⟩
  exact toModelRow_nonneg i r (clean_nonneg _ r hr)

theorem processRow_nonneg (fails : SalesRow → Bool) (st : InsertState)
    (row : SalesRow) (hst : ∀ rec ∈ st.store, nonnegRow rec)
    (hrow : nonnegRow row) :
    ∀ rec ∈ (processRow fails st row).store, nonnegRow rec := by
  intro rec hrec
  by_cases hsk : skipRow fails row
  · rw [processRow_skip fails st row hsk] at hrec
    exact hst rec hrec
  · have hsk' : skipRow fails row = false := by simpa using hsk
    cases hfind : getOrNone st.store row with
    | some q =>
      rw [processRow_update fails st row q hsk' hfind] at hrec
      dsimp only at hrec
      rcases List.mem_map.mp hrec with ⟨p, hp, hpr⟩
      by_cases hid : p.id = q.id
      · rw [if_pos hid] at hpr
        rw [← hpr]
        exact ⟨hrow.1, hrow.2.1, hrow.2.2⟩
      · rw [if_neg hid] at hpr
        rw [← hpr]
        exact hst p hp
    | none =>
      rw [processRow_insert fails st row hsk' hfind] at hrec
      dsimp only at hrec
      rcases List.mem_append.mp hrec with h | h
      · exact hst rec h
      · rcases List.mem_singleton.mp h with rfl
        exact ⟨hrow.1, hrow.2.1, hrow.2.2⟩

theorem run_nonneg (fails : SalesRow → Bool) :
    ∀ (rows : List SalesRow) (st : InsertState),
      (∀ rec ∈ st.store, nonnegRow rec) → (∀ r ∈ rows, nonnegRow r) →
      ∀ rec ∈ (bulk_insert fails st rows).store, nonnegRow rec := by
  intro rows
  induction rows with
  | nil =>
    intro st hst _
    exact hst
  | cons r rest ih =>
    intro st hst hrows
    exact ih (processRow fails st r)
      (processRow_nonneg fails st r hst (hrows r (List.mem_cons_self r rest)))
      (fun q hq => hrows q (List.mem_cons_of_mem _ hq))

end ImportersImportSales

/-- Claim C7: for every input dataframe — adversarial cells included — and
every store whose records already satisfy the clamp, no record persisted by
the sales pipeline (aggregate, clamp `"value"`, reshape, upsert) carries a
negative value in any of the three metric columns derived from the clamped
`"value"` column. -/
theorem C7_no_negative_persisted (projects : List ImportersImportSales.Project)
    (firstId : Nat) (df : List ImportersImportSales.InRow) (dates : List String)
    (st : ImportersImportSales.InsertState)
    (hst : ∀ rec ∈ st.store, ImportersImportSales.nonnegRow rec) :
    ∀ rec ∈ (ImportersImportSales.bulk_insert ImportersImportSales.noFail st
        (ImportersImportSales.pipeline projects firstId df dates)).store,
      0 ≤ rec.total_gs ∧ 0 ≤ rec.total_ewc ∧ 0 ≤ rec.total_gm := by
  intro rec hrec
  exact ImportersImportSales.run_nonneg ImportersImportSales.noFail
    (ImportersImportSales.pipeline projects firstId df dates) st hst
    (fun m hm => ImportersImportSales.pipeline_nonneg projects firstId df dates m hm)
    rec hrec

/-- Witness for C7 at the adversarial input with a -1e9 cell over the empty
store. -/
theorem C7_witness :
    (∀ rec ∈ Fixtures.stEmpty.store, ImportersImportSales.nonnegRow rec) ∧
    (∀ rec ∈ (ImportersImportSales.bulk_insert ImportersImportSales.noFail
        Fixtures.stEmpty
        (ImportersImportSales.pipeline Fixtures.projectsC 0 Fixtures.dfC7
          Fixtures.datesC)).store,
      0 ≤ rec.total_gs ∧ 0 ≤ rec.total_ewc ∧ 0 ≤ rec.total_gm) := by
  have hst : ∀ rec ∈ Fixtures.stEmpty.store, ImportersImportSales.nonnegRow rec := by
    intro rec hrec
    simp [Fixtures.stEmpty] at hrec
  exact ⟨hst, C7_no_negative_persisted Fixtures.projectsC 0 Fixtures.dfC7
    Fixtures.datesC Fixtures.stEmpty hst⟩

namespace DbUtils

theorem existingRecords_nil (store : List StoredSale) (valid : List DRow) :
    existingRecords store valid = [] := by
  have hp : (fun _ : DRow =>
      SALES_UNIQUE_FIELDS.all (fun f => salesColumns.contains f))
      = (fun _ : DRow => false) := by
    funext r
    decide
  unfold existingRecords
  rw [hp]
  simp

theorem updateTargets_nil : ∀ valid : List DRow, updateTargets [] valid = [] := by
  intro valid
  induction valid with
  | nil => rfl
  | cons r rest ih =>
    unfold updateTargets at ih ⊢
    rw [List.filterMap_cons]
    exact ih

theorem insertRows_nil : ∀ valid : List DRow, insertRows [] valid = valid := by
  intro valid
  induction valid with
  | nil => rfl
  | cons r rest ih =>
    unfold insertRows at ih ⊢
    rw [List.filter_cons_of_pos]
    · rw [ih]
    · rfl

theorem db_bulk_insert_inserts_only (store : List StoredSale)
    (data : List DRow) :
    bulk_insert store data
      = store ++ ((data.filter requiredOk).map insertOf) := by
  show (updateTargets (existingRecords store (data.filter requiredOk))
      (data.filter requiredOk)).foldl
      (fun s u => s.map (fun rec =>
        if rec.id = u.1 then applyUpdate rec u.2 else rec))
      (store ++ (insertRows (existingRecords store (data.filter requiredOk))
        (data.filter requiredOk)).map insertOf)
    = store ++ ((data.filter requiredOk).map insertOf)
  rw [existingRecords_nil, updateTargets_nil, insertRows_nil]
  rfl

end DbUtils

/-- Claim C5 diverges from the code: `utils/db_utils.py::bulk_insert` keys its
existing-record lookup by the model's raw unique-index names (`project_id`,
`date_of_month_begin`, `segment`) while the dataframe column is named
`project`, so `row.get("project_id")` is always `None`, no stored row is ever
matched, and every call routes every valid row to insert.  On a store already
holding the incoming unique key the stored record keeps its old metric values
and a duplicate-key record carrying the freshly generated identifier is
appended — not the claimed overwrite of the metric fields under the stored
identifier. -/
theorem C5_code_divergence :
    (∀ (store : List DbUtils.StoredSale) (data : List DbUtils.DRow),
        DbUtils.bulk_insert store data
          = store ++ ((data.filter DbUtils.requiredOk).map DbUtils.insertOf)) ∧
    DbUtils.bulk_insert [Fixtures.storedOld] [Fixtures.rowC5]
      = [Fixtures.storedOld, Fixtures.insC5] ∧
    DbUtils.recKey Fixtures.insC5 = DbUtils.recKey Fixtures.storedOld ∧
    Fixtures.storedOld.total_gs = 10 ∧ Fixtures.rowC5.total_gs = 99 ∧
    Fixtures.insC5.id ≠ Fixtures.storedOld.id := by
  refine ⟨DbUtils.db_bulk_insert_inserts_only, ?_, by decide, by decide,
    by decide, by decide⟩
  decide

/-- Claim C1 as stated is false for the second cited implementation: running
`utils/db_utils.py::bulk_insert` twice with the identical one-row input
leaves the store with two records carrying the same unique-key tuple — the
count of rows keyed by the declared unique constraint grows from 1 after the
first run to 2 after the second (against a live unique index the second run's
insert raises instead), because the key lookup never matches under the
`project`/`project_id` column-name mismatch. -/
theorem C1_counterexample :
    ((DbUtils.bulk_insert [] [Fixtures.rowC5]).map DbUtils.recKey).count
      (DbUtils.recKey Fixtures.insC5) = 1 ∧
    ((DbUtils.bulk_insert (DbUtils.bulk_insert [] [Fixtures.rowC5])
        [Fixtures.rowC5]).map DbUtils.recKey).count
      (DbUtils.recKey Fixtures.insC5) = 2 ∧
    ¬((DbUtils.bulk_insert (DbUtils.bulk_insert [] [Fixtures.rowC5])
        [Fixtures.rowC5]).map DbUtils.recKey).Nodup := by
  refine ⟨by decide, by decide, by decide⟩
